import Mathlib

/-!
Verification development for the card-message generation pipeline
(`src/engine.ts`, `src/validate.ts`, `src/roles.ts`).

The TypeScript sources are shallowly embedded below.  Text is modelled as
`String` (all character-level operations work on `String.data`, a
`List Char`).  JavaScript regular-expression operations used by the code
are implemented directly as the concrete scanning functions they denote.
Errors thrown by the JS code are modelled as `Except String` results,
carrying the exact message strings the source builds (the one exception
is the message produced by the JS engine's own `JSON.parse`, which is
engine specific and is abstracted to a fixed string; no claim depends on
its content).

Notes on JS semantics that the embedding reproduces:
* `\s` / `trim()` use the full ECMAScript whitespace set;
* `split(/\s+/)` produces empty boundary segments, which the sources
  always discard with `.filter(Boolean)` where it matters;
* string hashing in `pickCanonAnchors` uses `|`/`^`/`>>` 32-bit integer
  coercions and a double-precision (`*`) multiplication whose result is
  rounded to 53 bits of mantissa, which the embedding performs exactly;
* `toLowerCase` is modelled by ASCII lowercasing (all strings the
  pipeline compares against are ASCII).

One modelling decision is forced by the source itself: line 598 of
`src/engine.ts` applies `lookslikeThemeDump`, but the function defined at
line 541 is named `looksLikeThemeDump` (capital `L`).  The module is run
through type-stripping loaders (it imports `./ollama.ts` by `.ts`
extension), so at run time the reference does not resolve and evaluating
the final disjunct of `needsRepair` raises a `ReferenceError`, which the
surrounding `catch` receives.  The embedding mirrors this: when every
disjunct evaluated before the unresolved identifier is false, the attempt
takes the catch path with that error instead of returning directly.

The external LLM (`ollamaChat`) is out of scope per the spec; it is
modelled as a scripted stub `g : Nat -> String` mapping the index of the
call (the calls of one generation are strictly sequential) to the raw
response text.  The prompt strings passed to it never influence the
orchestrator's own control flow, so prompt assembly is not modelled.
Likewise the canon meaning file is an input (`MeaningFile` value) rather
than a file read, and `new Date().toISOString()` is an explicit `nowISO`
argument.
-/

/-- ECMAScript whitespace (the class `\s`, also used by `String.prototype.trim`). -/
def isJsWs (c : Char) : Bool :=
  let n := c.toNat
  n = 9 || n = 10 || n = 11 || n = 12 || n = 13 || n = 32 || n = 0xa0 ||
  n = 0x1680 || (0x2000 ≤ n && n ≤ 0x200a) || n = 0x2028 || n = 0x2029 ||
  n = 0x202f || n = 0x205f || n = 0x3000 || n = 0xfeff

/-- Drop trailing characters satisfying `p`. -/
def dropTrailing (p : Char → Bool) (cs : List Char) : List Char :=
  (cs.reverse.dropWhile p).reverse

/-- JS `String.prototype.trim`. -/
def jsTrimL (cs : List Char) : List Char :=
  dropTrailing isJsWs (cs.dropWhile isJsWs)

/-- ASCII lowercasing, modelling `toLowerCase` on the ASCII strings used here. -/
def toLowerL (cs : List Char) : List Char := cs.map Char.toLower

/-- JS `split(/\s+/)`: segments between maximal whitespace runs, keeping
empty boundary segments exactly as JS does.  `cur` is the reversed current
segment; `inSep` is true while scanning the inside of a separator run (the
current segment has then already been emitted). -/
def splitRunsAux (cur : List Char) (inSep : Bool) : List Char → List (List Char)
  | [] => [cur.reverse]
  | c :: rest =>
    if isJsWs c then
      if inSep then splitRunsAux cur true rest
      else cur.reverse :: splitRunsAux [] true rest
    else
      if inSep then splitRunsAux [c] false rest
      else splitRunsAux (c :: cur) false rest

/-- `wordCount` on character lists. -/
def wordCountL (cs : List Char) : Nat :=
  ((splitRunsAux [] false (jsTrimL cs)).filter (fun l => !l.isEmpty)).length

/-- `wordCount` from `src/validate.ts`: `text.trim().split(/\s+/).filter(Boolean).length`. -/
def wordCount (text : String) : Nat := wordCountL text.data

/-- Terminal sentence punctuation `[.!?]`. -/
def isTerminalPunct (c : Char) : Bool := c = '.' || c = '!' || c = '?'

/-- Counting scan behind `sentenceCount`: occurrences of `[.!?]` followed by
whitespace or end of input (the regex `[.!?](?=\s|$)`). -/
def scAux : List Char → Nat
  | [] => 0
  | [c] => if isTerminalPunct c then 1 else 0
  | c :: d :: rest =>
    (if isTerminalPunct c && isJsWs d then 1 else 0) + scAux (d :: rest)

/-- `sentenceCount` from `src/validate.ts`. -/
def sentenceCount (text : String) : Nat := scAux (jsTrimL text.data)

/-- Sentence segmentation by the regex `/(?<=[.!?])\s+/`: a maximal
whitespace run preceded by terminal punctuation is a separator.  `acc` is
the reversed current segment; `skip` is true while consuming the whitespace
of a separator (the segment has then already been emitted). -/
def splitSentAux (acc : List Char) (skip : Bool) : List Char → List (List Char)
  | [] => [acc.reverse]
  | c :: rest =>
    if skip then
      if isJsWs c then splitSentAux acc true rest
      else splitSentAux [c] false rest
    else
      if isTerminalPunct c && (match rest with | [] => false | d :: _ => isJsWs d) then
        (acc.reverse ++ [c]) :: splitSentAux [] true rest
      else splitSentAux (c :: acc) false rest

/-- The trimmed, non-empty sentence segments used by
`validateNoImperativeCoaching`, `padSentence3ToMinWords` and
`looksLikeThemeDump`: `text.split(/(?<=[.!?])\s+/).map(s => s.trim()).filter(Boolean)`. -/
def processedSentences (text : String) : List (List Char) :=
  ((splitSentAux [] false text.data).map jsTrimL).filter (fun l => !l.isEmpty)

/-- Scanner of JS `replace(/\s+/g, " ")`; `inSep` is true while inside a
whitespace run whose single replacement space has already been emitted. -/
def collapseWsGo (inSep : Bool) : List Char → List Char
  | [] => []
  | c :: rest =>
    if isJsWs c then
      if inSep then collapseWsGo true rest
      else ' ' :: collapseWsGo true rest
    else c :: collapseWsGo false rest

/-- JS `replace(/\s+/g, " ")`: collapse every maximal whitespace run to one space. -/
def collapseWs (cs : List Char) : List Char := collapseWsGo false cs

/-- Split on a single literal character (JS `split(",")`, `split(" ")`). -/
def splitOnCharAux (sep : Char) (cur : List Char) : List Char → List (List Char)
  | [] => [cur.reverse]
  | c :: rest =>
    if c = sep then cur.reverse :: splitOnCharAux sep [] rest
    else splitOnCharAux sep (c :: cur) rest

/-- JS `String.prototype.includes` on character lists. -/
def containsL (hay needle : List Char) : Bool :=
  needle.isPrefixOf hay ||
    match hay with
    | [] => false
    | _ :: t => containsL t needle

/-- First index at which `needle` occurs in `hay` (JS `indexOf` for substrings). -/
def idxOfSubAux (hay needle : List Char) (i : Nat) : Option Nat :=
  if needle.isPrefixOf hay then some i
  else match hay with
    | [] => none
    | _ :: t => idxOfSubAux t needle (i + 1)

/-- Join character lists with single spaces (JS `Array.prototype.join(" ")`). -/
def joinSp : List (List Char) → List Char
  | [] => []
  | [p] => p
  | p :: q :: rest => p ++ ' ' :: joinSp (q :: rest)

/-! ## `src/validate.ts` -/

/-- `Role` from `src/validate.ts` / `src/roles.ts`. -/
inductive Role where
  | past
  | present
  | future
deriving DecidableEq, Repr

/-- `DISCOURAGED_PHRASES` (soft lint list). -/
def DISCOURAGED_PHRASES : List String :=
  ["be mindful", "reflect", "moving forward", "remember", "this is a time",
   "appears to", "signify", "calling", "ready for you to", "let the path unfold",
   "now it\x27s time", "the card suggests", "the card indicates",
   "this card appears", "this card signifies"]

/-- `lintDiscouragedPhrases`: case-insensitive substring hits against the list. -/
def lintDiscouragedPhrases (text : String) : List String :=
  let t := toLowerL text.data
  DISCOURAGED_PHRASES.filter (fun p => containsL t p.data)

/-- ASCII word character, the regex class `\w`. -/
def isWordCharJS (c : Char) : Bool :=
  ('a' ≤ c && c ≤ 'z') || ('A' ≤ c && c ≤ 'Z') || ('0' ≤ c && c ≤ '9') || c = '_'

/-- Case-insensitive (ASCII) prefix test. -/
def ciHasPfx (pat : List Char) (cs : List Char) : Bool :=
  (toLowerL pat).isPrefixOf (toLowerL cs)

/-- Keyword set of the regex in `hasImperativeVerbs`. -/
def imperativeKeywords : List String :=
  ["speak", "take", "try", "remember", "focus", "consider", "embrace", "choose", "commit"]

/-- One keyword of `hasImperativeVerbs` matching at the head of `l`, with the
`\b` boundary after it (the boundary before is checked by the caller). -/
def impKeywordHere (l : List Char) : Bool :=
  imperativeKeywords.any (fun w =>
    ciHasPfx w.data l &&
      (match l.drop w.data.length with
       | [] => true
       | d :: _ => !isWordCharJS d))

/-- Scanner for `hasImperativeVerbs`; `prev` is the character before the
current position (`none` at the start of the text). -/
def hivAux (prev : Option Char) : List Char → Bool
  | [] => false
  | c :: rest =>
    ((match prev with | none => true | some p => !isWordCharJS p) &&
      impKeywordHere (c :: rest)) ||
    hivAux (some c) rest

/-- `hasImperativeVerbs`: `/\b(speak|take|try|remember|focus|consider|embrace|choose|commit)\b/i.test(text)`. -/
def hasImperativeVerbs (text : String) : Bool := hivAux none text.data

/-- `DISCOURAGED_IMPERATIVE_STARTS` — note the literal trailing spaces; the
entries `"remember"` and `"reflect"` have none. -/
def discouragedImperativeStarts : List String :=
  ["take ", "try ", "remember", "focus ", "reflect", "act ", "choose ",
   "commit ", "consider ", "embrace ", "let ", "allow "]

/-- The first violating start found by `validateNoImperativeCoaching`
(outer loop over sentences, inner loop over the start list). -/
def firstImperativeStart (cleaned : List Char) : Option String :=
  let sentences :=
    ((splitSentAux [] false cleaned).map (fun s => toLowerL (jsTrimL s))).filter
      (fun l => !l.isEmpty)
  sentences.findSome? (fun s =>
    discouragedImperativeStarts.find? (fun st => st.data.isPrefixOf s))

/-- `validateNoImperativeCoaching`: throws on the first sentence start hit. -/
def validateNoImperativeCoaching (cleaned : List Char) : Except String Unit :=
  match firstImperativeStart cleaned with
  | some st =>
    .error ("Imperative coaching detected: sentence starts with \"" ++
            String.mk (jsTrimL st.data) ++ "\"")
  | none => .ok ()

/-- `ValidateOptions` (all fields optional in TS; defaults are applied inside
`validateText`). -/
structure ValidateOptions where
  minWords : Option Nat := none
  maxWords : Option Nat := none
  requireSentenceCount : Option Nat := none
  enforceNoImperatives : Option Bool := none
deriving DecidableEq, Repr

/-- The word-count error message `Word count ${wc} outside ${min}–${max}.` -/
def wordCountMsg (wc minW maxW : Nat) : String :=
  "Word count " ++ toString wc ++ " outside " ++ toString minW ++ "–" ++
    toString maxW ++ "."

/-- `validateText` from `src/validate.ts`: empty check, word-count band,
optional exact sentence count, then imperative sentence starts; the first
violated check throws and `role` is not consulted (`void role`). -/
def validateText (text : String) (role : Role) (opts : ValidateOptions) :
    Except String Unit :=
  let minW := opts.minWords.getD 75
  let maxW := opts.maxWords.getD 150
  let enforce := opts.enforceNoImperatives.getD true
  let cleaned := jsTrimL text.data
  if cleaned = [] then .error "\"text\" is empty."
  else
    let wc := wordCountL cleaned
    if wc < minW || wc > maxW then .error (wordCountMsg wc minW maxW)
    else
      let step4 : Except String Unit :=
        if enforce then validateNoImperativeCoaching cleaned else .ok ()
      match opts.requireSentenceCount with
      | some n =>
        let sc := scAux (jsTrimL cleaned)
        if sc ≠ n then
          .error ("Sentence count " ++ toString sc ++ " != " ++ toString n ++ ".")
        else step4
      | none => step4

/-! ## `src/roles.ts` -/

/-- `roleFromIdKey`: prefix dispatch on the lowercased position id; any other
shape throws `Unsupported idKey for this scaffold`. -/
def roleFromIdKey (idKey : String) : Except String Role :=
  let k := toLowerL idKey.data
  if ("past-".data).isPrefixOf k then .ok .past
  else if ("present-".data).isPrefixOf k then .ok .present
  else if ("future-".data).isPrefixOf k then .ok .future
  else .error ("Unsupported idKey for this scaffold: " ++ idKey)

/-! ## `src/engine.ts` — canon data, anchors, soft heuristics -/

/-- One orientation side of a meaning file: `{ themes: string[]; core: string[] }`. -/
structure MeaningSide where
  themes : List String
  core : List String
deriving DecidableEq, Repr

/-- `MeaningFile`, the canon record for one card. -/
structure MeaningFile where
  cardId : String
  cardName : String
  upright : MeaningSide
  reversed : MeaningSide
deriving DecidableEq, Repr

/-- The side selected by the orientation flag. -/
def sideOf (m : MeaningFile) (rev : Bool) : MeaningSide :=
  if rev then m.reversed else m.upright

/-- `buildCanonBlock`. -/
def buildCanonBlock (m : MeaningFile) (rev : Bool) : List String :=
  let side := sideOf m rev
  ["themes: " ++ String.intercalate ", " side.themes,
   "core: " ++ String.intercalate " | " side.core]

/-- JS `ToInt32`: reduce an integer to the signed 32-bit range. -/
def toInt32 (n : Int) : Int :=
  let m := n.emod 4294967296
  if m ≥ 2147483648 then m - 4294967296 else m

/-- JS `^` on numbers: both operands are converted with `ToInt32`, then
xored bitwise; the result is again a signed 32-bit integer. -/
def jsXor (a b : Int) : Int :=
  let a32 := (toInt32 a).emod 4294967296 |>.toNat
  let b32 := (toInt32 b).emod 4294967296 |>.toNat
  toInt32 (Int.ofNat (Nat.xor a32 b32))

/-- Round a nonnegative integer to the nearest multiple of `u` (ties to the
even multiple) — the mantissa rounding of IEEE double arithmetic. -/
def roundNatToMultiple (m u : Nat) : Nat :=
  let q := m / u
  let r := m % u
  if r * 2 < u then q * u
  else if r * 2 > u then (q + 1) * u
  else if q % 2 = 0 then q * u else (q + 1) * u

/-- Round an integer of magnitude below `2^55` to the nearest representable
IEEE double (53-bit mantissa, round to nearest, ties to even); this is what
the JS `*` produces in the hash loop. -/
def roundDouble (p : Int) : Int :=
  if p.natAbs < 9007199254740992 then p
  else
    let u : Nat := if p.natAbs < 18014398509481984 then 2 else 4
    let m := roundNatToMultiple p.natAbs u
    if p < 0 then -(Int.ofNat m) else Int.ofNat m

/-- First UTF-16 code unit of a character (`charCodeAt(0)` of a code point
produced by `for..of`). -/
def utf16First (c : Char) : Nat :=
  if c.toNat ≥ 0x10000 then 0xd800 + ((c.toNat - 0x10000) / 1024) else c.toNat

/-- One step of the seed hash: `h = (h ^ ch.charCodeAt(0)) * 16777619` with
JS number semantics. -/
def fnvStep (h : Int) (code : Nat) : Int :=
  roundDouble (jsXor h (Int.ofNat code) * 16777619)

/-- The "tiny deterministic hash" of `pickCanonAnchors`. -/
def hashSeed (seedKey : String) : Int :=
  seedKey.data.foldl (fun h c => fnvStep h (utf16First c)) 2166136261

/-- JS `h >> 8` (sign-propagating shift of the `ToInt32` image). -/
def shr8 (h : Int) : Int := (toInt32 h).fdiv 256

/-- `pickCanonAnchors`: two core lines selected deterministically from the
seed; `filter(Boolean)` keeps the non-empty core statements. -/
def pickCanonAnchors (m : MeaningFile) (rev : Bool) (seedKey : String) :
    List String :=
  let side := sideOf m rev
  let core := side.core.filter (fun s => !s.isEmpty)
  if core.length = 0 then ["", ""]
  else if core.length = 1 then [core.getD 0 "", core.getD 0 ""]
  else if core.length = 2 then [core.getD 0 "", core.getD 1 ""]
  else
    let h := hashSeed seedKey
    let i1 := h.natAbs % core.length
    let i2 := (i1 + 1 + ((shr8 h).natAbs % (core.length - 1))) % core.length
    [core.getD i1 "", core.getD i2 ""]

/-- `keywordsFromAnchor`: lowercase, strip everything outside
`[a-z0-9\s']`, split on whitespace, keep words of length ≥ 5. -/
def keywordsFromAnchor (anchor : String) : List String :=
  let s1 := toLowerL anchor.data
  let s2 := s1.filter (fun c =>
    ('a' ≤ c && c ≤ 'z') || ('0' ≤ c && c ≤ '9') || isJsWs c || c = '\x27')
  let ws := (splitRunsAux [] false s2).filter (fun l => !l.isEmpty)
  (ws.filter (fun w => w.length ≥ 5)).map String.mk

/-- The `{matched, total}` record returned by `scoreAnchorCoverage`. -/
structure Coverage where
  matched : Nat
  total : Nat
deriving DecidableEq, Repr

/-- `scoreAnchorCoverage`: an anchor counts as covered when at least two of
its keywords occur in the lowercased candidate text. -/
def scoreAnchorCoverage (text : String) (anchors : List String) : Coverage :=
  let t := toLowerL text.data
  let matched := anchors.countP (fun a =>
    ((keywordsFromAnchor a).countP (fun k => containsL t k.data)) ≥ 2)
  ⟨matched, anchors.length⟩

/-- `STOP_WORDS` from `src/engine.ts`. -/
def STOP_WORDS : List String :=
  ["the", "a", "an", "and", "or", "but", "so", "to", "of", "in", "on", "for",
   "with", "at", "by", "i", "me", "my", "mine", "you", "your", "yours", "we",
   "our", "ours", "is", "am", "are", "was", "were", "be", "been", "being",
   "how", "what", "where", "when", "why", "can", "do", "does", "did",
   "should", "would", "could", "this", "that", "these", "those", "it", "as",
   "from", "into", "over", "under", "about", "now"]

/-- Strip leading and trailing `-` from a token (`replace(/^-+|-+$/g, "")`). -/
def stripDashes (cs : List Char) : List Char :=
  dropTrailing (fun c => c = '-') (cs.dropWhile (fun c => c = '-'))

/-- `normalizeTokens`: lowercase, delete quote characters, map everything
outside `[a-z0-9\s-]` to a space, collapse whitespace, trim, split on the
single-space separator, drop empties, strip edge dashes. -/
def normalizeTokens (s : String) : List String :=
  let s1 := toLowerL s.data
  let s2 := s1.filter (fun c => !(c = '"' || c = '\x27'))
  let s3 := s2.map (fun c =>
    if ('a' ≤ c && c ≤ 'z') || ('0' ≤ c && c ≤ '9') || isJsWs c || c = '-' then c
    else ' ')
  let s4 := jsTrimL (collapseWs s3)
  let toks := (splitOnCharAux ' ' [] s4).filter (fun l => !l.isEmpty)
  toks.map (fun t => String.mk (stripDashes t))

/-- `hasIntentionReference`: at least one overlapping meaningful token, or
two when the intention has five or more of them. -/
def hasIntentionReference (text intentionText : String) : Bool :=
  let intentTokens := (normalizeTokens intentionText).filter
    (fun t => !(STOP_WORDS.contains t))
  let textTokens := normalizeTokens text
  let needed := if intentTokens.length ≥ 5 then 2 else 1
  (intentTokens.countP (fun t => textTokens.contains t)) ≥ needed

/-- The question starters probed by `intentionQuote`. -/
def quoteStarters : List String :=
  ["where am i", "what is", "what can", "how can", "how do", "should i",
   "is it", "what will"]

/-- The tail-word replacement `/\b(my|the|a|an|on|in|of|to|for)$/i`: the
leftmost match wins, which is the longest alternative ending the string with
a word boundary before it; the matched word (only) is removed. -/
def stripSmallTail (cs : List Char) : List Char :=
  let n := cs.length
  let tryLen : Nat → List String → Bool := fun L alts =>
    n ≥ L &&
    (alts.any (fun w => toLowerL (cs.drop (n - L)) = w.data)) &&
    (n = L || !isWordCharJS (cs.getD (n - L - 1) ' '))
  if tryLen 3 ["the", "for"] then cs.take (n - 3)
  else if tryLen 2 ["my", "an", "on", "in", "of", "to"] then cs.take (n - 2)
  else if tryLen 1 ["a"] then cs.take (n - 1)
  else cs

/-- `intentionQuote`: a 2–6 word fragment of the intention text, preferring a
slice that begins at a common question starter, else a middle slice. -/
def intentionQuote (intentionText : String) : String :=
  let cleaned := (collapseWs (jsTrimL intentionText.data)).filter
    (fun c => !(c = '"' || c = '\x27'))
  let lower := toLowerL cleaned
  let fromStarters := quoteStarters.findSome? (fun s =>
    match idxOfSubAux lower s.data 0 with
    | none => none
    | some idx =>
      let tail := (splitRunsAux [] false (cleaned.drop idx)).filter (fun l => !l.isEmpty)
      let phrase := joinSp (tail.take 6)
      let trimmed := stripSmallTail phrase
      if (splitRunsAux [] false trimmed).length ≥ 2 then some (String.mk trimmed)
      else none)
  match fromStarters with
  | some q => q
  | none =>
    let words := (splitRunsAux [] false cleaned).filter (fun l => !l.isEmpty)
    if words.length ≤ 6 then String.mk cleaned
    else
      let mid := words.length / 2
      let start := mid - 2
      let phrase := joinSp ((words.drop start).take 5)
      let trimmed := stripSmallTail phrase
      if (splitRunsAux [] false trimmed).length ≥ 2 then String.mk trimmed
      else String.mk (joinSp ((words.drop start).take 4))

/-- `extractThemesFromCanonLines`: parse the `themes: a, b, c` canon line. -/
def extractThemesFromCanonLines (canonLines : List String) : List String :=
  match canonLines.find? (fun l => ("themes:".data).isPrefixOf (toLowerL l.data)) with
  | none => []
  | some line =>
    let afterColon :=
      match line.data.dropWhile (fun c => c ≠ ':') with
      | [] => line.data
      | _ :: t => t
    (((splitOnCharAux ',' [] afterColon).map jsTrimL).filter (fun l => !l.isEmpty)).map
      String.mk

/-- The fixed role-aware padding clause of `padSentence3ToMinWords`. -/
def rolePhraseOf (role : Role) (a b c ih : String) : String :=
  match role with
  | .past => "In that season, " ++ a ++ " and " ++ b ++ " steadied you, and " ++
      c ++ " stayed honest inside your " ++ ih ++ "."
  | .present => "In this season, " ++ a ++ " and " ++ b ++ " steady you, and " ++
      c ++ " stays honest inside your " ++ ih ++ "."
  | .future => "In the season ahead, " ++ a ++ " and " ++ b ++
      " will steady you, and " ++ c ++ " will stay honest inside your " ++ ih ++ "."

/-- The fixed role-aware second padding sentence. -/
def extraOf (role : Role) : String :=
  match role with
  | .past => "It shaped how you chose when certainty wasn’t available."
  | .present => "It shapes how you choose even without certainty."
  | .future => "It will shape how you choose even without certainty."

/-- `padSentence3ToMinWords`: deterministic local padding.  Returns the input
unchanged when the word count already reaches the minimum or when fewer than
three sentences exist; otherwise splices the fixed role-aware clause into the
third sentence.  This is the only repair strategy that does not invoke the
generator. -/
def padSentence3ToMinWords (text : String) (role : Role) (themes : List String)
    (intentionText : String) (minWords : Nat) : String :=
  if wordCount text ≥ minWords then text
  else
    match processedSentences text with
    | s0 :: s1 :: s2 :: rest =>
      let a := themes.getD 0 "trust"
      let b := themes.getD 1 "focus"
      let c := themes.getD 2 "openness"
      let intentTokens := (normalizeTokens intentionText).filter
        (fun t => !(STOP_WORDS.contains t))
      let ihRaw := String.intercalate " " (intentTokens.take 2)
      let ih := if ihRaw = "" then "intention" else ihRaw
      let s2Stripped := dropTrailing isTerminalPunct s2
      let newS2 :=
        jsTrimL (collapseWs (s2Stripped ++ ' ' ::
          ((rolePhraseOf role a b c ih).data ++ ' ' :: (extraOf role).data))) ++ ['.']
      String.mk (joinSp (s0 :: s1 :: newS2 :: rest))
    | _ => text

/-- `makeKey`: the stable output key. -/
def makeKey (spreadId idKey intentionId cardId : String) (rev : Bool) : String :=
  spreadId ++ "|" ++ idKey ++ "|" ++ intentionId ++ "|" ++ cardId ++ "|" ++
    (if rev then "r" else "u")

/-! ## JSON parsing (`JSON.parse` as used by `parseJsonOnly`) -/

/-- JSON values as produced by `JSON.parse`; numbers keep their lexeme (the
pipeline never computes with them). -/
inductive JVal where
  | jnull
  | jbool (b : Bool)
  | jnum (lit : String)
  | jstr (s : String)
  | jarr (xs : List JVal)
  | jobj (fields : List (String × JVal))

/-- JSON insignificant whitespace. -/
def jsonWsCh (c : Char) : Bool := c = ' ' || c = '\t' || c = '\n' || c = '\r'

/-- Hex digit value. -/
def hexVal (c : Char) : Option Nat :=
  if '0' ≤ c && c ≤ '9' then some (c.toNat - 48)
  else if 'a' ≤ c && c ≤ 'f' then some (c.toNat - 87)
  else if 'A' ≤ c && c ≤ 'F' then some (c.toNat - 70)
  else none

/-- Parse the body of a JSON string (after the opening quote), returning the
decoded content and the input after the closing quote.  A `\uXXXX` escape
yielding a lone surrogate has no `Char` counterpart and is mapped to U+FFFD
(such strings cannot arise in the claims settled here). -/
def parseStrBody (fuel : Nat) (cs : List Char) : Option (List Char × List Char) :=
  match fuel with
  | 0 => none
  | fuel + 1 =>
    match cs with
    | [] => none
    | c :: rest =>
      if c = '"' then some ([], rest)
      else if c = '\\' then
        match rest with
        | [] => none
        | e :: r2 =>
          if e = '"' || e = '\\' || e = '/' then
            (parseStrBody fuel r2).map (fun (s, r) => (e :: s, r))
          else if e = 'b' then (parseStrBody fuel r2).map (fun (s, r) => ('\x08' :: s, r))
          else if e = 'f' then (parseStrBody fuel r2).map (fun (s, r) => ('\x0c' :: s, r))
          else if e = 'n' then (parseStrBody fuel r2).map (fun (s, r) => ('\n' :: s, r))
          else if e = 'r' then (parseStrBody fuel r2).map (fun (s, r) => ('\r' :: s, r))
          else if e = 't' then (parseStrBody fuel r2).map (fun (s, r) => ('\t' :: s, r))
          else if e = 'u' then
            match r2 with
            | h1 :: h2 :: h3 :: h4 :: r6 =>
              match hexVal h1, hexVal h2, hexVal h3, hexVal h4 with
              | some v1, some v2, some v3, some v4 =>
                let u := ((v1 * 16 + v2) * 16 + v3) * 16 + v4
                if 0xd800 ≤ u && u ≤ 0xdbff then
                  match r6 with
                  | '\\' :: 'u' :: k1 :: k2 :: k3 :: k4 :: r12 =>
                    match hexVal k1, hexVal k2, hexVal k3, hexVal k4 with
                    | some w1, some w2, some w3, some w4 =>
                      let v := ((w1 * 16 + w2) * 16 + w3) * 16 + w4
                      if 0xdc00 ≤ v && v ≤ 0xdfff then
                        let cp := 0x10000 + (u - 0xd800) * 1024 + (v - 0xdc00)
                        (parseStrBody fuel r12).map
                          (fun (s, r) => (Char.ofNat cp :: s, r))
                      else
                        (parseStrBody fuel r6).map (fun (s, r) => ('�' :: s, r))
                    | _, _, _, _ =>
                      (parseStrBody fuel r6).map (fun (s, r) => ('�' :: s, r))
                  | _ =>
                    (parseStrBody fuel r6).map (fun (s, r) => ('�' :: s, r))
                else if 0xdc00 ≤ u && u ≤ 0xdfff then
                  (parseStrBody fuel r6).map (fun (s, r) => ('�' :: s, r))
                else
                  (parseStrBody fuel r6).map (fun (s, r) => (Char.ofNat u :: s, r))
              | _, _, _, _ => none
            | _ => none
          else none
      else if c.toNat < 32 then none
      else (parseStrBody fuel rest).map (fun (s, r) => (c :: s, r))

/-- Parse a JSON number lexeme (`-?(0|[1-9][0-9]*)(\.[0-9]+)?([eE][+-]?[0-9]+)?`). -/
def parseNumLex (cs : List Char) : Option (List Char × List Char) :=
  let (sign, cs1) :=
    match cs with
    | '-' :: r => (['-'], r)
    | _ => (([] : List Char), cs)
  match cs1 with
  | [] => none
  | c :: r =>
    if !c.isDigit then none
    else
      let (intPart, r1) :=
        if c = '0' then ([c], r)
        else (c :: r.takeWhile Char.isDigit, r.dropWhile Char.isDigit)
      let (fracPart, r2) :=
        match r1 with
        | '.' :: d :: rf =>
          if d.isDigit then
            ('.' :: d :: rf.takeWhile Char.isDigit, rf.dropWhile Char.isDigit)
          else (([] : List Char), r1)
        | _ => (([] : List Char), r1)
      if fracPart = [] && (match r1 with | '.' :: _ => true | _ => false) then none
      else
        let (expPart, r3) :=
          match r2 with
          | e :: tl =>
            if e = 'e' || e = 'E' then
              let (sgn, tl2) :=
                match tl with
                | '+' :: t2 => (['+'], t2)
                | '-' :: t2 => (['-'], t2)
                | _ => (([] : List Char), tl)
              match tl2 with
              | d :: _ =>
                if d.isDigit then
                  (e :: (sgn ++ tl2.takeWhile Char.isDigit), tl2.dropWhile Char.isDigit)
                else (([] : List Char), r2)
              | [] => (([] : List Char), r2)
            else (([] : List Char), r2)
          | [] => (([] : List Char), r2)
        if expPart = [] && (match r2 with | e :: _ => e = 'e' || e = 'E' | _ => false) then
          some (sign ++ intPart ++ fracPart, r2)
        else some (sign ++ intPart ++ fracPart ++ expPart, r3)

/-- Record a parsed object member the way JS property assignment does:
a repeated key overwrites the value in place, a new key is appended. -/
def insertField (fs : List (String × JVal)) (k : String) (v : JVal) :
    List (String × JVal) :=
  if fs.any (fun p => p.1 = k) then
    fs.map (fun p => if p.1 = k then (k, v) else p)
  else fs ++ [(k, v)]

mutual

/-- Parse one JSON value (leading whitespace allowed). -/
def parseVal (fuel : Nat) (cs : List Char) : Option (JVal × List Char) :=
  match fuel with
  | 0 => none
  | fuel + 1 =>
    let cs := cs.dropWhile jsonWsCh
    match cs with
    | [] => none
    | c :: rest =>
      if c = '\x7b' then
        let rest1 := rest.dropWhile jsonWsCh
        match rest1 with
        | '\x7d' :: r => some (.jobj [], r)
        | _ => (parseMembers fuel rest []).map (fun (fs, r) => (JVal.jobj fs, r))
      else if c = '[' then
        let rest1 := rest.dropWhile jsonWsCh
        match rest1 with
        | ']' :: r => some (.jarr [], r)
        | _ => (parseElems fuel rest []).map (fun (xs, r) => (JVal.jarr xs, r))
      else if c = '"' then
        (parseStrBody rest.length.succ rest).map
          (fun (s, r) => (JVal.jstr (String.mk s), r))
      else if c = 't' then
        if ("rue".data).isPrefixOf rest then some (.jbool true, rest.drop 3) else none
      else if c = 'f' then
        if ("alse".data).isPrefixOf rest then some (.jbool false, rest.drop 4) else none
      else if c = 'n' then
        if ("ull".data).isPrefixOf rest then some (.jnull, rest.drop 3) else none
      else
        (parseNumLex (c :: rest)).map (fun (lex, r) => (JVal.jnum (String.mk lex), r))

/-- Parse the members of an object, after the opening brace (at least one
member present). -/
def parseMembers (fuel : Nat) (cs : List Char) (acc : List (String × JVal)) :
    Option (List (String × JVal) × List Char) :=
  match fuel with
  | 0 => none
  | fuel + 1 =>
    match cs.dropWhile jsonWsCh with
    | '"' :: rest =>
      match parseStrBody rest.length.succ rest with
      | none => none
      | some (key, r1) =>
        match r1.dropWhile jsonWsCh with
        | ':' :: r2 =>
          match parseVal fuel r2 with
          | none => none
          | some (v, r3) =>
            let acc := insertField acc (String.mk key) v
            match r3.dropWhile jsonWsCh with
            | ',' :: r4 => parseMembers fuel r4 acc
            | '\x7d' :: r4 => some (acc, r4)
            | _ => none
        | _ => none
    | _ => none

/-- Parse the elements of an array, after the opening bracket (at least one
element present). -/
def parseElems (fuel : Nat) (cs : List Char) (acc : List JVal) :
    Option (List JVal × List Char) :=
  match fuel with
  | 0 => none
  | fuel + 1 =>
    match parseVal fuel cs with
    | none => none
    | some (v, r1) =>
      match r1.dropWhile jsonWsCh with
      | ',' :: r2 => parseElems fuel r2 (acc ++ [v])
      | ']' :: r2 => some (acc ++ [v], r2)
      | _ => none

end

/-- `JSON.parse`: one value, then only whitespace to the end. -/
def jsonParse (cs : List Char) : Option JVal :=
  match parseVal (cs.length + 1) cs with
  | some (v, rest) => if rest.dropWhile jsonWsCh = [] then some v else none
  | none => none

/-! ## `parseJsonOnly` and the orchestrator (`src/engine.ts`) -/

/-- The substring from the first `\x7b` to the last `\x7d` that
`parseJsonOnly` feeds to `JSON.parse`; `none` when `first === -1`,
`last === -1` or `last <= first`. -/
def braceSlice (cs : List Char) : Option (List Char) :=
  match cs.findIdx? (fun c => c = '\x7b'),
        (cs.reverse.findIdx? (fun c => c = '\x7d')).map
          (fun i => cs.length - 1 - i) with
  | some first, some last =>
    if first < last then some ((cs.drop first).take (last + 1 - first)) else none
  | _, _ => none

/-- `parseJsonOnly` from `src/engine.ts`: slice to the outermost braces,
`JSON.parse`, require an object whose `text` member is a string, forbid
other keys, and require the trimmed text to be non-empty.  The message of a
`JSON.parse` failure is produced by the JS engine and is abstracted to a
fixed string here. -/
def parseJsonOnly (raw : String) : Except String String :=
  let trimmed := jsTrimL raw.data
  match braceSlice trimmed with
  | none =>
    .error ("Model did not return JSON. Got: " ++ String.mk (trimmed.take 180) ++ "...")
  | some jsonStr =>
    match jsonParse jsonStr with
    | none => .error "Invalid JSON: unexpected token"
    | some v =>
      match v with
      | .jobj fields =>
        match fields.find? (fun p => p.1 = "text") with
        | some (_, .jstr s) =>
          if fields.any (fun p => p.1 ≠ "text") then
            .error ("Extra JSON keys not allowed: " ++
              String.intercalate ", " ((fields.filter (fun p => p.1 ≠ "text")).map
                (fun p => p.1)))
          else
            let text := jsTrimL s.data
            if text = [] then .error "\"text\" is empty."
            else .ok (String.mk text)
        | _ => .error "JSON must be exactly \x7b\"text\":\"...\"\x7d (no other keys)."
      | _ => .error "JSON must be exactly \x7b\"text\":\"...\"\x7d (no other keys)."

/-- Consume a case-insensitive literal from the front. -/
def eatCI (pat : List Char) (cs : List Char) : Option (List Char) :=
  if ciHasPfx pat (cs.take pat.length) && pat.length ≤ cs.length then
    some (cs.drop pat.length)
  else none

/-- Consume one or more characters satisfying `p` from the front. -/
def eatMany1 (p : Char → Bool) (cs : List Char) : Option (List Char) :=
  match cs with
  | c :: _ => if p c then some (cs.dropWhile p) else none
  | [] => none

/-- The regex `/Word count\s+\d+\s+outside\s+\d+–\d+/i` anchored at the
current position (the character classes of adjacent pieces are disjoint, so
greedy runs are exact). -/
def wcPatHere (cs : List Char) : Bool :=
  (do
    let r1 ← eatCI ("Word count".data) cs
    let r2 ← eatMany1 isJsWs r1
    let r3 ← eatMany1 Char.isDigit r2
    let r4 ← eatMany1 isJsWs r3
    let r5 ← eatCI ("outside".data) r4
    let r6 ← eatMany1 isJsWs r5
    let r7 ← eatMany1 Char.isDigit r6
    let r8 ← match r7 with
             | '–' :: t => some t
             | _ => none
    let _ ← eatMany1 Char.isDigit r8
    pure ()).isSome

/-- Scan of `RegExp.prototype.test`: does the pattern match anywhere? -/
def wcPatScan : List Char → Bool
  | [] => wcPatHere []
  | c :: rest => wcPatHere (c :: rest) || wcPatScan rest

/-- `isWordCountError`: the orchestrator recognises word-count hard failures
by matching the recorded message text against the pattern. -/
def isWordCountError (msg : String) : Bool := wcPatScan msg.data

/-- `CardGenInput`. -/
structure CardGenInput where
  spreadId : String
  idKey : String
  intentionId : String
  intentionText : String
  cardId : String
  cardName : String
  reversed : Bool
deriving DecidableEq, Repr

/-- `CardGenOutput` (`createdAtISO` is the ambient clock value, an explicit
argument in the embedding). -/
structure CardGenOutput where
  key : String
  text : String
  createdAtISO : String
deriving DecidableEq, Repr

/-- The hard-gate options the engine always passes:
`{minWords: 75, maxWords: 150, enforceNoImperatives: true}`. -/
def engineOpts : ValidateOptions :=
  { minWords := some 75, maxWords := some 150, requireSentenceCount := none,
    enforceNoImperatives := some true }

/-- The anchor-selection seed `${intentionId}|${cardId}|${idKey}|${r|u}`. -/
def seedOf (input : CardGenInput) : String :=
  input.intentionId ++ "|" ++ input.cardId ++ "|" ++ input.idKey ++ "|" ++
    (if input.reversed then "r" else "u")

/-- The key of `input`, as `makeKey` builds it. -/
def keyOf (input : CardGenInput) : String :=
  makeKey input.spreadId input.idKey input.intentionId input.cardId input.reversed

/-- A successful result record. -/
def mkOut (input : CardGenInput) (text now : String) : CardGenOutput :=
  ⟨keyOf input, text, now⟩

/-- The disjuncts of `needsRepair` that evaluate before the unresolved
`lookslikeThemeDump` reference (JS `||` short-circuits left to right): when
any is true the draft enters the soft-repair loop, and when all are false
evaluation of the final disjunct raises the `ReferenceError`. -/
def needsRepairEvaluated (text : String) (anchors : List String)
    (intentionText : String) : Bool :=
  let hits := (lintDiscouragedPhrases text).length
  let cov := scoreAnchorCoverage text anchors
  let wc := wordCount text
  let sc := sentenceCount text
  cov.matched < cov.total || hits ≥ 2 || wc < 95 || wc > 125 || sc < 4 ||
    sc > 6 || hasImperativeVerbs text || !(hasIntentionReference text intentionText)

/-- The `ReferenceError` message raised by the `lookslikeThemeDump` typo. -/
def refErrMsg : String := "lookslikeThemeDump is not defined"

/-- The soft-repair acceptance condition checked after each rewrite round:
full coverage, at most one discouraged hit, word count inside the target
band `[95, 125]`. -/
def softSuccess (working : String) (anchors : List String) : Bool :=
  let hits2 := (lintDiscouragedPhrases working).length
  let cov2 := scoreAnchorCoverage working anchors
  let wc2 := wordCount working
  (cov2.matched = cov2.total) && hits2 ≤ 1 && 95 ≤ wc2 && wc2 ≤ 125

/-- The error recorded when soft repairs end without meeting the coverage
criterion. -/
def softTargetsMsg (cov : Coverage) : String :=
  "Soft targets not met after repairs (coverage=" ++ toString cov.matched ++
    "/" ++ toString cov.total ++ ")."

/-- The length-repair chain run from the `catch` branch on a word-count
message: one micro-repair generator call, deterministic padding, hard-gate
re-validation.  Returns the outcome and the next generator call index. -/
def lengthRepairChain (g : Nat → String) (k : Nat) (input : CardGenInput)
    (role : Role) (canonLines : List String) (now : String) (text : String) :
    Except String CardGenOutput × Nat :=
  match parseJsonOnly (g k) with
  | .error e => (.error e, k + 1)
  | .ok t0 =>
    let themes := extractThemesFromCanonLines canonLines
    let q := intentionQuote input.intentionText
    let repaired := padSentence3ToMinWords t0 role themes q 75
    match validateText repaired role engineOpts with
    | .error e => (.error e, k + 1)
    | .ok _ => (.ok (mkOut input repaired now), k + 1)

/-- Outcome of one draft attempt: an accepted result, or the updated
`(call index, lastErr, lastText)` the loop continues with. -/
inductive AttemptRes where
  | done (out : CardGenOutput)
  | next (k : Nat) (err : String) (lastText : Option String)

/-- The `catch` branch of a draft attempt, reached with the parsed draft
`text` and the thrown message `e`: a message matching the word-count
pattern triggers the length-repair chain, anything else records the error
and text and consumes the attempt. -/
def attemptCatch (g : Nat → String) (input : CardGenInput) (role : Role)
    (canonLines : List String) (now : String) (k : Nat) (text : String)
    (e : String) : AttemptRes :=
  if isWordCountError e then
    match lengthRepairChain g k input role canonLines now text with
    | (.ok out, _) => .done out
    | (.error e2, k2) => .next k2 ("Micro-repair failed: " ++ e2) (some text)
  else .next k e (some text)

/-- Outcome of the soft-repair rounds. -/
inductive RepairRes where
  | done (out : CardGenOutput)
  | fellThrough (k : Nat) (working : String)
  | threw (k : Nat) (err : String)

/-- Up to `MAX_REPAIRS_PER_DRAFT = 2` rewrite rounds: parse, hard-gate
re-validate, accept on `softSuccess`; a parse or validation failure
propagates to the attempt's catch. -/
def repairRounds (g : Nat → String) (input : CardGenInput) (role : Role)
    (anchors : List String) (now : String) :
    Nat → Nat → String → RepairRes
  | 0, k, working => .fellThrough k working
  | fuel + 1, k, _ =>
    match parseJsonOnly (g k) with
    | .error e => .threw (k + 1) e
    | .ok w2 =>
      match validateText w2 role engineOpts with
      | .error e => .threw (k + 1) e
      | .ok _ =>
        if softSuccess w2 anchors then .done (mkOut input w2 now)
        else repairRounds g input role anchors now fuel (k + 1) w2

/-- One draft attempt of the orchestrator loop (`g k` is the draft call). -/
def runAttempt (g : Nat → String) (input : CardGenInput) (role : Role)
    (anchors canonLines : List String) (now : String) (k : Nat)
    (prevLastText : Option String) : AttemptRes :=
  match parseJsonOnly (g k) with
  | .error e => .next (k + 1) e prevLastText
  | .ok text =>
    match validateText text role engineOpts with
    | .error e => attemptCatch g input role canonLines now (k + 1) text e
    | .ok _ =>
      if needsRepairEvaluated text anchors input.intentionText then
        match repairRounds g input role anchors now 2 (k + 1) text with
        | .done out => .done out
        | .threw k2 e => attemptCatch g input role canonLines now k2 text e
        | .fellThrough k2 working =>
          let covF := scoreAnchorCoverage working anchors
          if covF.matched = covF.total then .done (mkOut input working now)
          else .next k2 (softTargetsMsg covF) (some working)
      else attemptCatch g input role canonLines now (k + 1) text refErrMsg

/-- The draft-attempt loop (`MAX_DRAFT_ATTEMPTS = 4` from the caller);
exhaustion yields the final `(call index, lastErr, lastText)` state. -/
def genLoop (g : Nat → String) (input : CardGenInput) (role : Role)
    (anchors canonLines : List String) (now : String) :
    Nat → Nat → Option String → Option String →
    Except (Nat × Option String × Option String) CardGenOutput
  | 0, k, lastErr, lastText => .error (k, lastErr, lastText)
  | fuel + 1, k, _, lastText =>
    match runAttempt g input role anchors canonLines now k lastText with
    | .done out => .ok out
    | .next k2 e lt2 => genLoop g input role anchors canonLines now fuel k2 (some e) lt2

/-- The exhaustion error `Failed to generate valid output. Last error: …`. -/
def exhaustMsg (lastErr : Option String) : String :=
  "Failed to generate valid output. Last error: " ++ lastErr.getD "unknown"

/-- The final fallback block: only the last recorded text is considered; it
must re-pass the hard gate, and when its word count is outside the target
band one more micro-repair call is parsed and validated — any failure in
this block falls through to the exhaustion error. -/
def finishFallback (g : Nat → String) (input : CardGenInput) (role : Role)
    (now : String) (k : Nat) (lastErr : Option String)
    (lastText : Option String) : Except String CardGenOutput :=
  match lastText with
  | none => .error (exhaustMsg lastErr)
  | some lt =>
    match validateText lt role engineOpts with
    | .error _ => .error (exhaustMsg lastErr)
    | .ok _ =>
      let wc := wordCount lt
      if wc < 95 || wc > 125 then
        match parseJsonOnly (g k) with
        | .error _ => .error (exhaustMsg lastErr)
        | .ok rt =>
          match validateText rt role engineOpts with
          | .error _ => .error (exhaustMsg lastErr)
          | .ok _ => .ok (mkOut input rt now)
      else .ok (mkOut input lt now)

/-- `generateCardMessage`: resolve the role, build canon lines and anchors,
run up to four draft attempts, then the fallback.  `m` is the loaded canon
record, `now` the clock value, `g` the scripted generator stub. -/
def generateCardMessage (input : CardGenInput) (m : MeaningFile) (now : String)
    (g : Nat → String) : Except String CardGenOutput :=
  match roleFromIdKey input.idKey with
  | .error e => .error e
  | .ok role =>
    let canonLines := buildCanonBlock m input.reversed
    let anchors := pickCanonAnchors m input.reversed (seedOf input)
    match genLoop g input role anchors canonLines now 4 0 none none with
    | .ok out => .ok out
    | .error (k, lastErr, lastText) =>
      finishFallback g input role now k lastErr lastText

/-! ## Reasoning helpers and claim-side definitions -/

/-- Word-start count: `cws b cs` counts the maximal non-whitespace runs of
`cs`, where `b` records whether a run may start at the head (true at the
start of a text and after whitespace).  `cws true` agrees with `wordCountL`
and is the form word-count arithmetic is done in. -/
def cws (b : Bool) : List Char → Nat
  | [] => 0
  | c :: r => if isJsWs c then cws true r else (if b then 1 else 0) + cws false r

/-- The whitespace flag after scanning `xs` starting from flag `b`. -/
def wsEndFlag (b : Bool) (xs : List Char) : Bool :=
  xs.foldl (fun _ c => isJsWs c) b

/-- Modelled from the claim wording of C4: a sentence "begins
case-insensitively with lead word `w`" — `w` is a prefix of the (already
lowercased) sentence and ends at a letter boundary. -/
def beginsWithWord (w : String) (s : List Char) : Bool :=
  w.data.isPrefixOf s &&
    (match s.drop w.data.length with
     | [] => true
     | d :: _ => !(('a' ≤ d && d ≤ 'z') || ('A' ≤ d && d ≤ 'Z')))

/-- Modelled from the claim wording of C4: the banned imperative lead words. -/
def claimedLeadWords : List String :=
  ["take", "try", "remember", "focus", "reflect", "act", "choose", "commit",
   "consider", "embrace", "let", "allow"]

/-- Modelled from the claim wording of C4: no sentence begins with a banned
lead word (word-boundary reading of "begins with"). -/
def claimedImperativeFree (cleaned : List Char) : Bool :=
  let sentences :=
    ((splitSentAux [] false cleaned).map (fun s => toLowerL (jsTrimL s))).filter
      (fun l => !l.isEmpty)
  sentences.all (fun s => claimedLeadWords.all (fun w => !(beginsWithWord w s)))

/-- Modelled from the claim wording of C4: the claimed acceptance condition
of `validateText`. -/
def claimedValidateAccepts (text : String) (opts : ValidateOptions) : Bool :=
  let minW := opts.minWords.getD 75
  let maxW := opts.maxWords.getD 150
  let enforce := opts.enforceNoImperatives.getD true
  let cleaned := jsTrimL text.data
  !cleaned.isEmpty && minW ≤ wordCountL cleaned && wordCountL cleaned ≤ maxW &&
    (match opts.requireSentenceCount with
     | some n => scAux (jsTrimL cleaned) = n
     | none => true) &&
    (!enforce || claimedImperativeFree cleaned)

/-- The acceptance condition `validateText` actually implements: as the
claimed one, but a sentence is rejected when it starts with one of the
literal prefixes of `DISCOURAGED_IMPERATIVE_STARTS` (trailing space for ten
of the words, none for `remember` and `reflect`). -/
def codeValidateAccepts (text : String) (opts : ValidateOptions) : Bool :=
  let minW := opts.minWords.getD 75
  let maxW := opts.maxWords.getD 150
  let enforce := opts.enforceNoImperatives.getD true
  let cleaned := jsTrimL text.data
  let sentences :=
    ((splitSentAux [] false cleaned).map (fun s => toLowerL (jsTrimL s))).filter
      (fun l => !l.isEmpty)
  !cleaned.isEmpty && minW ≤ wordCountL cleaned && wordCountL cleaned ≤ maxW &&
    (match opts.requireSentenceCount with
     | some n => scAux (jsTrimL cleaned) = n
     | none => true) &&
    (!enforce ||
      sentences.all (fun s =>
        discouragedImperativeStarts.all (fun st => !(st.data.isPrefixOf s))))

/-! ## Concrete scenario data for witnesses and counterexamples -/

/-- `n` copies of the word `a`, space separated. -/
def aWords (n : Nat) : String := String.mk (joinSp (List.replicate n ['a']))

/-- A generator response wrapping `t` as `{"text": t}`. -/
def jsonOf (t : String) : String := "\x7b\"text\":\"" ++ t ++ "\"\x7d"

/-- A concrete generation request. -/
def inp0 : CardGenInput :=
  { spreadId := "ppf", idKey := "past-3", intentionId := "ppf:growth:healing",
    intentionText := "Where am I on my spiritual journey?", cardId := "0.TheOne",
    cardName := "The One", reversed := false }

/-- A concrete canon record: two core statements whose keywords do not occur
in the scripted texts, so anchor coverage stays incomplete. -/
def m0 : MeaningFile :=
  { cardId := "0.TheOne", cardName := "The One",
    upright := { themes := ["beginnings"],
                 core := ["weathered lighthouse keeper standing",
                          "another distant anchor phrase"] },
    reversed := { themes := [], core := [] } }

/-- A canon record whose relevant side has no core statements. -/
def mEmpty : MeaningFile :=
  { cardId := "1.TheVoid", cardName := "The Void",
    upright := { themes := ["stillness"], core := [] },
    reversed := { themes := [], core := [] } }

/-- The clock value used by the scenarios. -/
def now0 : String := "2026-01-01T00:00:00.000Z"

/-- A 75-word hard-gate-valid text. -/
def t75 : String := aWords 75

/-- A 95-word hard-gate-valid text inside the target band. -/
def t95 : String := aWords 95

/-- A 75-word text whose first sentence starts with the imperative `take `. -/
def tImp : String := "Take " ++ aWords 74

/-- A 75-word text whose first sentence is the bare word `Take.` — it begins
with the lead word `take`, but not with the literal prefix `"take "`. -/
def tTake : String := "Take. " ++ aWords 74

/-- A 75-word text whose first word is `Remembering` — no sentence begins
with the *word* `remember`, but the bare prefix `"remember"` matches. -/
def tRemembering : String := "Remembering " ++ aWords 74

/-- Script for the C6 counterexample run: the draft parses to `t75` and
passes the hard gate; the first rewrite round fails to parse with a message
that embeds the word-count pattern; the chain's micro-repair call supplies
`t95`. -/
def g0 : Nat → String := fun k =>
  if k = 0 then jsonOf t75
  else if k = 1 then "Word count 3 outside 1–2"
  else if k = 2 then jsonOf t95
  else ""

/-- Script for the C2 counterexample run: attempt 1 records the hard-valid
`t75` after soft repairs fail coverage; attempts 2–4 parse to the imperative
`tImp`, which fails the hard gate and overwrites the recorded text. -/
def gC2 : Nat → String := fun k =>
  if k ≤ 2 then jsonOf t75 else jsonOf tImp

/-- A short three-sentence text for the padding witness. -/
def text8 : String := "One two. Three four. Five six."

/-! # Lemmas on word counting -/

theorem cws_cons (b : Bool) (c : Char) (r : List Char) :
    cws b (c :: r) =
      if isJsWs c then cws true r else (if b = true then 1 else 0) + cws false r :=
  rfl

theorem cws_cons_ws {c : Char} (h : isJsWs c = true) (b : Bool) (l : List Char) :
    cws b (c :: l) = cws true l := by
  rw [cws_cons, if_pos h]

theorem wsEndFlag_cons (b : Bool) (c : Char) (t : List Char) :
    wsEndFlag b (c :: t) = wsEndFlag (isJsWs c) t :=
  rfl

theorem cws_append (xs ys : List Char) (b : Bool) :
    cws b (xs ++ ys) = cws b xs + cws (wsEndFlag b xs) ys := by
  induction xs generalizing b with
  | nil => simp [cws, wsEndFlag]
  | cons c t ih =>
    rw [List.cons_append, wsEndFlag_cons]
    by_cases h : isJsWs c
    · rw [cws_cons_ws h, cws_cons_ws h, ih true, h]
    · rw [cws_cons, if_neg h, cws_cons, if_neg h, ih false]
      rw [eq_false_of_ne_true h]
      omega

theorem cws_sep (xs ys : List Char) (b : Bool) :
    cws b (xs ++ ' ' :: ys) = cws b xs + cws true ys := by
  rw [cws_append, cws_cons_ws (show isJsWs ' ' = true by decide)]

theorem cws_of_all_ws : ∀ (l : List Char), (∀ c ∈ l, isJsWs c = true) →
    ∀ b, cws b l = 0 := by
  intro l
  induction l with
  | nil => intro _ _; rfl
  | cons c t ih =>
    intro h b
    rw [cws_cons_ws (h c (by simp)) b t]
    exact ih (fun d hd => h d (by simp [hd])) true

theorem cws_false_of_no_ws : ∀ (l : List Char), (∀ c ∈ l, isJsWs c = false) →
    cws false l = 0 := by
  intro l
  induction l with
  | nil => intro _; rfl
  | cons c t ih =>
    intro h
    rw [cws_cons, if_neg (by simp [h c (by simp)]), if_neg (by simp)]
    rw [ih (fun d hd => h d (by simp [hd]))]

theorem cws_le_one_of_no_ws {l : List Char} (h : ∀ c ∈ l, isJsWs c = false)
    (b : Bool) : cws b l ≤ 1 := by
  cases l with
  | nil => simp [cws]
  | cons c t =>
    rw [cws_cons, if_neg (by simp [h c (by simp)])]
    rw [cws_false_of_no_ws t (fun d hd => h d (by simp [hd]))]
    cases b <;> simp

theorem dropTrailing_decomp (p : Char → Bool) (cs : List Char) :
    cs = dropTrailing p cs ++ (cs.reverse.takeWhile p).reverse := by
  unfold dropTrailing
  rw [← List.reverse_append, List.takeWhile_append_dropWhile, List.reverse_reverse]

theorem cws_dropWhile_ws (l : List Char) :
    cws true (l.dropWhile isJsWs) = cws true l := by
  induction l with
  | nil => rfl
  | cons c t ih =>
    by_cases h : isJsWs c
    · rw [List.dropWhile_cons_of_pos (by simpa using h), ih, cws_cons_ws h]
    · rw [List.dropWhile_cons_of_neg (by simpa using h)]

theorem cws_trim (l : List Char) : cws true (jsTrimL l) = cws true l := by
  unfold jsTrimL
  rw [← cws_dropWhile_ws l]
  set m := l.dropWhile isJsWs with hm
  have hall : ∀ c ∈ (m.reverse.takeWhile isJsWs).reverse, isJsWs c = true := by
    intro c hc
    rw [List.mem_reverse] at hc
    exact List.mem_takeWhile_imp hc
  conv_rhs => rw [dropTrailing_decomp isJsWs m]
  rw [cws_append, cws_of_all_ws _ hall, Nat.add_zero]

theorem cws_collapseGo (cs : List Char) :
    (∀ b, cws b (collapseWsGo false cs) = cws b cs) ∧
      cws true (collapseWsGo true cs) = cws true cs := by
  induction cs with
  | nil => exact ⟨fun _ => rfl, rfl⟩
  | cons c rest ih =>
    by_cases h : isJsWs c
    · constructor
      · intro b
        show cws b (if isJsWs c then _ else _) = _
        rw [if_pos h]
        rw [if_neg (by simp)]
        rw [cws_cons_ws (show isJsWs ' ' = true by decide), ih.2, cws_cons_ws h]
      · show cws true (if isJsWs c then _ else _) = _
        rw [if_pos h, if_pos rfl, ih.2, cws_cons_ws h]
    · have hgo : ∀ inSep, collapseWsGo inSep (c :: rest) = c :: collapseWsGo false rest := by
        intro inSep
        show (if isJsWs c then _ else _) = _
        rw [if_neg h]
      constructor
      · intro b
        rw [hgo false, cws_cons, if_neg h, cws_cons, if_neg h, ih.1 false]
      · rw [hgo true, cws_cons, if_neg h, cws_cons, if_neg h, ih.1 false]

theorem cws_collapse (cs : List Char) (b : Bool) :
    cws b (collapseWs cs) = cws b cs :=
  (cws_collapseGo cs).1 b

theorem splitRuns_filter_len : ∀ (cs cur : List Char) (inSep : Bool),
    (inSep = true → cur = []) →
    ((splitRunsAux cur inSep cs).filter (fun l => !l.isEmpty)).length =
      (if cur.isEmpty then 0 else 1) + cws cur.isEmpty cs := by
  intro cs
  induction cs with
  | nil =>
    intro cur inSep _
    show ([cur.reverse].filter (fun l => !l.isEmpty)).length = _
    cases cur with
    | nil => simp [List.filter, cws]
    | cons x xs =>
      rw [show (x :: xs).reverse = xs.reverse ++ [x] from by simp]
      rw [List.filter_cons_of_pos (by simp)]
      simp [cws]
  | cons c rest ih =>
    intro cur inSep hinv
    show ((if isJsWs c then _ else _ : List (List Char)).filter _).length = _
    have hrec : ((splitRunsAux [] true rest).filter (fun l => !l.isEmpty)).length =
        cws true rest := by
      have := ih [] true (fun _ => rfl)
      simpa using this
    by_cases h : isJsWs c
    · rw [if_pos h, cws_cons_ws h]
      by_cases hs : inSep
      · have hc : cur = [] := hinv hs
        subst hc
        rw [hs, if_pos rfl]
        simpa using hrec
      · have hs' : inSep = false := by simpa using hs
        rw [hs', if_neg (by simp : ¬(false = true))]
        show ((cur.reverse :: splitRunsAux [] true rest).filter _).length = _
        cases cur with
        | nil => simpa using hrec
        | cons x xs =>
          rw [List.filter_cons_of_pos (by simp)]
          rw [List.length_cons, hrec]
          simp only [List.isEmpty_cons, if_neg (by simp : ¬(false = true))]
          omega
    · rw [if_neg h]
      have hcw : cws cur.isEmpty (c :: rest) =
          (if (cur.isEmpty : Bool) = true then 1 else 0) + cws false rest := by
        rw [cws_cons, if_neg h]
      rw [hcw]
      by_cases hs : inSep
      · have hc : cur = [] := hinv hs
        subst hc
        rw [hs, if_pos rfl]
        have := ih [c] false (by simp)
        rw [this]
        simp
      · have hs' : inSep = false := by simpa using hs
        rw [hs', if_neg (by simp : ¬(false = true))]
        have := ih (c :: cur) false (by simp)
        rw [this]
        cases cur <;> simp

theorem wordCountL_eq_cws (cs : List Char) : wordCountL cs = cws true cs := by
  unfold wordCountL
  rw [splitRuns_filter_len (jsTrimL cs) [] false (by simp)]
  simp [cws_trim]

theorem wordCount_eq_cws (s : String) : wordCount s = cws true s.data :=
  wordCountL_eq_cws s.data

theorem terminalPunct_not_ws {c : Char} (h : isTerminalPunct c = true) :
    isJsWs c = false := by
  have h3 : (c = '.' ∨ c = '!') ∨ c = '?' := by
    simpa [isTerminalPunct, or_assoc] using h
  rcases h3 with (h3 | h3) | h3 <;> subst h3 <;> decide

theorem wsEndFlag_append_last (b : Bool) (xs : List Char) (c : Char) :
    wsEndFlag b (xs ++ [c]) = isJsWs c := by
  unfold wsEndFlag
  rw [List.foldl_append]
  rfl

theorem splitSent_sum : ∀ (cs acc : List Char) (skip : Bool),
    (skip = true → acc = []) →
    ((splitSentAux acc skip cs).map (cws true)).sum = cws true (acc.reverse ++ cs) := by
  intro cs
  induction cs with
  | nil =>
    intro acc skip _
    show ([acc.reverse].map (cws true)).sum = _
    simp
  | cons c rest ih =>
    intro acc skip hinv
    cases skip with
    | true =>
      have ha : acc = [] := hinv rfl
      subst ha
      rw [show splitSentAux [] true (c :: rest) =
          (if isJsWs c then splitSentAux [] true rest
           else splitSentAux [c] false rest) from rfl]
      by_cases h : isJsWs c
      · rw [if_pos h, ih [] true (fun _ => rfl)]
        simp [cws_cons_ws h]
      · rw [if_neg h, ih [c] false (by simp)]
        rfl
    | false =>
      cases rest with
      | nil =>
        rw [show splitSentAux acc false [c] = splitSentAux (c :: acc) false [] from by
          simp [splitSentAux]]
        rw [ih (c :: acc) false (by simp)]
        simp
      | cons d rest2 =>
        rw [show splitSentAux acc false (c :: d :: rest2) =
            (if isTerminalPunct c && isJsWs d then
              (acc.reverse ++ [c]) :: splitSentAux [] true (d :: rest2)
             else splitSentAux (c :: acc) false (d :: rest2)) from rfl]
        by_cases hb : (isTerminalPunct c && isJsWs d) = true
        · rw [if_pos hb]
          have hterm : isTerminalPunct c = true := (Bool.and_eq_true_iff.mp hb).1
          have hd : isJsWs d = true := (Bool.and_eq_true_iff.mp hb).2
          rw [List.map_cons, List.sum_cons, ih [] true (fun _ => rfl)]
          rw [List.reverse_nil, List.nil_append]
          rw [show acc.reverse ++ c :: d :: rest2 =
              (acc.reverse ++ [c]) ++ d :: rest2 from by simp]
          rw [cws_append (acc.reverse ++ [c]) (d :: rest2) true]
          rw [wsEndFlag_append_last, terminalPunct_not_ws hterm]
          rw [cws_cons_ws hd, cws_cons_ws hd]
        · rw [if_neg hb]
          rw [ih (c :: acc) false (by simp)]
          simp

theorem sum_cws_filter_nonempty (L : List (List Char)) :
    ((L.filter (fun l => !l.isEmpty)).map (cws true)).sum = (L.map (cws true)).sum := by
  induction L with
  | nil => rfl
  | cons l L ih =>
    cases l with
    | nil =>
      rw [List.filter_cons_of_neg (by simp), List.map_cons, List.sum_cons,
        show cws true ([] : List Char) = 0 from rfl, Nat.zero_add, ih]
    | cons x xs =>
      rw [List.filter_cons_of_pos (by simp)]
      simp [ih]

theorem sum_cws_map_trim (L : List (List Char)) :
    ((L.map jsTrimL).map (cws true)).sum = (L.map (cws true)).sum := by
  rw [List.map_map]
  congr 1
  exact List.map_congr_left (fun l _ => cws_trim l)

theorem processedSentences_sum (text : String) :
    ((processedSentences text).map (cws true)).sum = cws true text.data := by
  unfold processedSentences
  rw [sum_cws_filter_nonempty, sum_cws_map_trim,
    splitSent_sum text.data [] false (by simp)]
  rfl

theorem cws_joinSp (parts : List (List Char)) :
    cws true (joinSp parts) = (parts.map (cws true)).sum := by
  induction parts with
  | nil => rfl
  | cons p rest ih =>
    cases rest with
    | nil => simp [joinSp]
    | cons q r =>
      rw [show joinSp (p :: q :: r) = p ++ ' ' :: joinSp (q :: r) from rfl]
      rw [cws_sep, ih]
      simp

theorem cws_append_last_ge (xs : List Char) (c : Char) (b : Bool) :
    cws b xs ≤ cws b (xs ++ [c]) := by
  rw [cws_append]
  exact Nat.le_add_right _ _

theorem cws_stripTrailingTerminal_ge (s : List Char) :
    cws true s ≤ cws true (dropTrailing isTerminalPunct s) + 1 := by
  conv_lhs => rw [dropTrailing_decomp isTerminalPunct s]
  rw [cws_append]
  have hno : ∀ c ∈ (s.reverse.takeWhile isTerminalPunct).reverse, isJsWs c = false := by
    intro c hc
    rw [List.mem_reverse] at hc
    exact terminalPunct_not_ws (List.mem_takeWhile_imp hc)
  have := cws_le_one_of_no_ws hno (wsEndFlag true (dropTrailing isTerminalPunct s))
  omega

theorem wordCount_mk (l : List Char) : wordCount (String.mk l) = cws true l :=
  wordCountL_eq_cws l

theorem pad_core_gt (s2 : List Char) (rp ex : String)
    (hex : 2 ≤ cws true ex.data) :
    cws true s2 <
      cws true (jsTrimL (collapseWs (dropTrailing isTerminalPunct s2 ++
        ' ' :: (rp.data ++ ' ' :: ex.data))) ++ ['.']) := by
  have h1 := cws_append_last_ge
    (jsTrimL (collapseWs (dropTrailing isTerminalPunct s2 ++
      ' ' :: (rp.data ++ ' ' :: ex.data)))) '.' true
  have h2 : cws true (jsTrimL (collapseWs (dropTrailing isTerminalPunct s2 ++
      ' ' :: (rp.data ++ ' ' :: ex.data)))) =
      cws true (dropTrailing isTerminalPunct s2 ++ ' ' :: (rp.data ++ ' ' :: ex.data)) := by
    rw [cws_trim, cws_collapse]
  have h3 : cws true (dropTrailing isTerminalPunct s2 ++ ' ' :: (rp.data ++ ' ' :: ex.data)) =
      cws true (dropTrailing isTerminalPunct s2) +
        (cws true rp.data + cws true ex.data) := by
    rw [cws_sep, cws_sep]
  have h4 := cws_stripTrailingTerminal_ge s2
  omega

theorem extraOf_word_count (role : Role) : 2 ≤ cws true (extraOf role).data := by
  cases role <;> decide

/-- Claim C8: on input below the minimum word count, `padSentence3ToMinWords`
is the identity when fewer than three sentences exist, and otherwise returns
text of strictly greater word count, by splicing the fixed role-aware clause
(built from up to three theme words and up to two intention content tokens)
into the third sentence; the function calls no generator (it is a pure
function of its arguments). -/
theorem c8_padding_noop_or_grows (text : String) (role : Role)
    (themes : List String) (intentionText : String) (minW : Nat)
    (hwc : wordCount text < minW) :
    ((processedSentences text).length < 3 →
      padSentence3ToMinWords text role themes intentionText minW = text) ∧
    (3 ≤ (processedSentences text).length →
      wordCount text <
        wordCount (padSentence3ToMinWords text role themes intentionText minW)) := by
  have hif : ¬ (wordCount text ≥ minW) := by omega
  unfold padSentence3ToMinWords
  rw [if_neg hif]
  have hsum := processedSentences_sum text
  cases hps : processedSentences text with
  | nil => exact ⟨fun _ => rfl, by intro h; simp at h⟩
  | cons s0 t =>
    cases t with
    | nil => exact ⟨fun _ => rfl, by intro h; simp at h⟩
    | cons s1 t2 =>
      cases t2 with
      | nil => exact ⟨fun _ => rfl, by intro h; simp at h⟩
      | cons s2 rest =>
        constructor
        · intro h3
          simp at h3
          omega
        · intro _
          rw [hps] at hsum
          simp only [List.map_cons, List.sum_cons] at hsum
          rw [wordCount_eq_cws text, ← hsum]
          dsimp only
          rw [wordCount_mk, cws_joinSp]
          simp only [List.map_cons, List.sum_cons]
          apply Nat.add_lt_add_left
          apply Nat.add_lt_add_left
          apply Nat.add_lt_add_right
          exact pad_core_gt s2 _ _ (extraOf_word_count role)

theorem c8_padding_noop_or_grows_witness :
    wordCount text8 < 75 ∧ 3 ≤ (processedSentences text8).length ∧
      wordCount text8 <
        wordCount (padSentence3ToMinWords text8 .past ["growth"] "healing path" 75) :=
  ⟨by decide, by decide,
    (c8_padding_noop_or_grows text8 .past ["growth"] "healing path" 75
      (by decide)).2 (by decide)⟩

/-- Claim C3: for a canon side with at least two non-empty core statements,
anchor selection is deterministic (the selector is a pure function of the
seed, so repeated invocation gives the identical pair) and picks two core
statements at distinct indices — also in the hashed-index case used for
three or more statements. -/
theorem c3_anchors_deterministic_distinct (m : MeaningFile) (rev : Bool)
    (seedKey : String)
    (h2 : 2 ≤ ((sideOf m rev).core.filter (fun s => !s.isEmpty)).length) :
    pickCanonAnchors m rev seedKey = pickCanonAnchors m rev seedKey ∧
    ∃ i j : Fin ((sideOf m rev).core.filter (fun s => !s.isEmpty)).length,
      i.val ≠ j.val ∧
      pickCanonAnchors m rev seedKey =
        [((sideOf m rev).core.filter (fun s => !s.isEmpty)).get i,
         ((sideOf m rev).core.filter (fun s => !s.isEmpty)).get j] := by
  refine ⟨rfl, ?_⟩
  unfold pickCanonAnchors
  dsimp only
  generalize hgen : (sideOf m rev).core.filter (fun s => !s.isEmpty) = core at h2 ⊢
  rw [if_neg (by omega), if_neg (by omega)]
  by_cases hlen : core.length = 2
  · rw [if_pos hlen]
    refine ⟨⟨0, by omega⟩, ⟨1, by omega⟩, by simp, ?_⟩
    rw [List.getD_eq_getElem _ _ (by omega), List.getD_eq_getElem _ _ (by omega)]
    simp [List.get_eq_getElem]
  · rw [if_neg hlen]
    have hn : 3 ≤ core.length := by omega
    have hi1lt : (hashSeed seedKey).natAbs % core.length < core.length :=
      Nat.mod_lt _ (by omega)
    set i1 := (hashSeed seedKey).natAbs % core.length with hi1
    set d := 1 + (shr8 (hashSeed seedKey)).natAbs % (core.length - 1) with hd
    have hdub : d ≤ core.length - 1 := by
      have : (shr8 (hashSeed seedKey)).natAbs % (core.length - 1) < core.length - 1 :=
        Nat.mod_lt _ (by omega)
      omega
    have hi2lt : (i1 + d) % core.length < core.length := Nat.mod_lt _ (by omega)
    have hne : (i1 + d) % core.length ≠ i1 := by
      by_cases hcase : i1 + d < core.length
      · rw [Nat.mod_eq_of_lt hcase]
        omega
      · rw [Nat.mod_eq_sub_mod (by omega), Nat.mod_eq_of_lt (by omega)]
        omega
    refine ⟨⟨i1, hi1lt⟩, ⟨(i1 + d) % core.length, hi2lt⟩, by simpa using hne.symm, ?_⟩
    have harr : i1 + 1 + (shr8 (hashSeed seedKey)).natAbs % (core.length - 1) = i1 + d := by
      omega
    rw [harr, List.getD_eq_getElem _ _ hi1lt, List.getD_eq_getElem _ _ hi2lt]
    simp [List.get_eq_getElem]

theorem c3_anchors_deterministic_distinct_witness :
    2 ≤ (((sideOf ⟨"c", "C", ⟨[], ["alpha one", "beta two", "gamma three"]⟩,
        ⟨[], []⟩⟩ false).core.filter (fun s => !s.isEmpty)).length) ∧
    (∃ i j : Fin (((sideOf ⟨"c", "C", ⟨[], ["alpha one", "beta two", "gamma three"]⟩,
        ⟨[], []⟩⟩ false).core.filter (fun s => !s.isEmpty)).length),
      i.val ≠ j.val ∧
      pickCanonAnchors ⟨"c", "C", ⟨[], ["alpha one", "beta two", "gamma three"]⟩,
        ⟨[], []⟩⟩ false "seed" =
        [((sideOf ⟨"c", "C", ⟨[], ["alpha one", "beta two", "gamma three"]⟩,
            ⟨[], []⟩⟩ false).core.filter (fun s => !s.isEmpty)).get i,
         ((sideOf ⟨"c", "C", ⟨[], ["alpha one", "beta two", "gamma three"]⟩,
            ⟨[], []⟩⟩ false).core.filter (fun s => !s.isEmpty)).get j]) :=
  ⟨by decide,
    (c3_anchors_deterministic_distinct
      ⟨"c", "C", ⟨[], ["alpha one", "beta two", "gamma three"]⟩, ⟨[], []⟩⟩
      false "seed" (by decide)).2⟩

/-- Claim C10: the hard gate's verdict does not depend on the role argument
(`validateText` never consults `role`; the source ends in `void role`), and
in particular no future-role structural rule is enforced: a future-role text
without any `If` sentence is accepted. -/
theorem c10_validateText_role_independent :
    (∀ (text : String) (opts : ValidateOptions) (r1 r2 : Role),
      validateText text r1 opts = validateText text r2 opts) ∧
    validateText t75 .future engineOpts = .ok () ∧
    containsL t75.data "If".data = false :=
  ⟨fun _ _ _ _ => rfl, rfl, by decide⟩

/-- Claim C5 counterexample: for a canon side with zero core statements the
anchors are the two empty strings, but `scoreAnchorCoverage` then reports
`matched = 0` out of `total = 2` — not full coverage — on a candidate text. -/
theorem c5_counterexample :
    pickCanonAnchors mEmpty false "s" = ["", ""] ∧
    scoreAnchorCoverage "alpha beta gamma delta" ["", ""] = ⟨0, 2⟩ ∧
    (scoreAnchorCoverage "alpha beta gamma delta" ["", ""]).matched ≠
      (scoreAnchorCoverage "alpha beta gamma delta" ["", ""]).total :=
  ⟨by decide, by decide, by decide⟩

/-- Claim C5 amended: when the canon side has no non-empty core statements,
`pickCanonAnchors` returns two empty anchors, and the coverage check
degenerates to vacuously *false*: an empty anchor has no keywords, so it is
never covered and `scoreAnchorCoverage` reports `0` matched out of `2` for
every candidate text — the coverage requirement is never satisfied. -/
theorem c5_amended (m : MeaningFile) (rev : Bool) (seed : String) (text : String)
    (h0 : (sideOf m rev).core.filter (fun s => !s.isEmpty) = []) :
    pickCanonAnchors m rev seed = ["", ""] ∧
    scoreAnchorCoverage text (pickCanonAnchors m rev seed) = ⟨0, 2⟩ := by
  have hp : pickCanonAnchors m rev seed = ["", ""] := by
    unfold pickCanonAnchors
    dsimp only
    rw [h0]
    rfl
  refine ⟨hp, ?_⟩
  rw [hp]
  rfl

theorem c5_amended_witness :
    pickCanonAnchors mEmpty false "s" = ["", ""] ∧
    scoreAnchorCoverage "any words here" (pickCanonAnchors mEmpty false "s") =
      ⟨0, 2⟩ :=
  c5_amended mEmpty false "s" "any words here" (by decide)

/-- Claim C4 counterexample: the text whose first sentence is the bare word
`Take.` begins with the imperative lead word `take`, so under the claimed
acceptance condition it must be rejected; `validateText` accepts it, because
the implemented check matches the literal prefix `"take "` (with a trailing
space) which `take.` does not carry. -/
theorem c4_counterexample :
    validateText tTake .past engineOpts = .ok () ∧
    claimedValidateAccepts tTake engineOpts = false :=
  ⟨rfl, by decide⟩

theorem firstImperativeStart_none_iff (cleaned : List Char) :
    firstImperativeStart cleaned = none ↔
      (((splitSentAux [] false cleaned).map (fun s => toLowerL (jsTrimL s))).filter
        (fun l => !l.isEmpty)).all
        (fun s => discouragedImperativeStarts.all
          (fun st => !(st.data.isPrefixOf s))) = true := by
  unfold firstImperativeStart
  rw [List.findSome?_eq_none_iff, List.all_eq_true]
  constructor
  · intro h s hs
    rw [List.all_eq_true]
    intro st hst
    have h2 := h s hs
    rw [List.find?_eq_none] at h2
    have h3 := h2 st hst
    cases hb : st.data.isPrefixOf s with
    | true => exact absurd hb h3
    | false => simp [hb]
  · intro h s hs
    rw [List.find?_eq_none]
    intro st hst hbad
    have h2 := h s hs
    rw [List.all_eq_true] at h2
    have h3 := h2 st hst
    rw [hbad] at h3
    simp at h3

theorem validateNoImperativeCoaching_ok_iff (cleaned : List Char) :
    validateNoImperativeCoaching cleaned = .ok () ↔
      firstImperativeStart cleaned = none := by
  unfold validateNoImperativeCoaching
  cases h : firstImperativeStart cleaned <;> simp [h]

/-- Claim C4 amended: `validateText` accepts exactly when the trimmed text is
non-empty, the word count lies in `[minWords, maxWords]` (defaults 75/150),
the optional exact sentence count matches, and — with imperative enforcement
on — no sentence starts with one of the *literal prefixes* of
`DISCOURAGED_IMPERATIVE_STARTS` (ten words followed by a space, plus the bare
prefixes `remember` and `reflect`, which also reject words like
`remembering`; conversely a banned word directly followed by punctuation, as
in `Take.`, is not caught).  The checks run in order: the empty check throws
first, then the word-count check, whose error carries the measured count.
The verdict is role-independent, hence deterministic in text and options. -/
theorem c4_amended (text : String) (role : Role) (opts : ValidateOptions) :
    (validateText text role opts = .ok () ↔
      codeValidateAccepts text opts = true) ∧
    (jsTrimL text.data = [] →
      validateText text role opts = .error "\"text\" is empty.") ∧
    (jsTrimL text.data ≠ [] →
      (wordCountL (jsTrimL text.data) < opts.minWords.getD 75 ∨
        opts.maxWords.getD 150 < wordCountL (jsTrimL text.data)) →
      validateText text role opts =
        .error (wordCountMsg (wordCountL (jsTrimL text.data))
          (opts.minWords.getD 75) (opts.maxWords.getD 150))) ∧
    (∀ r2 : Role, validateText text role opts = validateText text r2 opts) := by
  refine ⟨?_, ?_, ?_, fun _ => rfl⟩
  · unfold validateText codeValidateAccepts
    dsimp only
    by_cases hempty : jsTrimL text.data = []
    · rw [if_pos hempty, hempty]
      simp
    · rw [if_neg hempty]
      have hne : (jsTrimL text.data).isEmpty = false := by
        cases hv : jsTrimL text.data with
        | nil => exact absurd hv hempty
        | cons a b => rfl
      rw [hne, Bool.not_false]
      by_cases hwc : (decide (wordCountL (jsTrimL text.data) < opts.minWords.getD 75) ||
          decide (wordCountL (jsTrimL text.data) > opts.maxWords.getD 150)) = true
      · rw [if_pos hwc]
        rw [Bool.or_eq_true, decide_eq_true_eq, decide_eq_true_eq] at hwc
        constructor
        · intro h
          exact absurd h (by simp)
        · intro h
          simp only [Bool.true_and, Bool.and_eq_true, decide_eq_true_eq] at h
          obtain ⟨⟨⟨hmin, hmax⟩, _⟩, _⟩ := h
          omega
      · rw [if_neg hwc]
        have hwc2 : (opts.minWords.getD 75 ≤ wordCountL (jsTrimL text.data) ∧
            wordCountL (jsTrimL text.data) ≤ opts.maxWords.getD 150) := by
          rw [Bool.or_eq_true, not_or] at hwc
          simp only [decide_eq_true_eq] at hwc
          omega
        rw [Bool.true_and]
        rw [show decide (opts.minWords.getD 75 ≤ wordCountL (jsTrimL text.data)) = true
            from by simp [hwc2.1]]
        rw [Bool.true_and]
        rw [show decide (wordCountL (jsTrimL text.data) ≤ opts.maxWords.getD 150) = true
            from by simp [hwc2.2]]
        rw [Bool.true_and]
        cases hrsc : opts.requireSentenceCount with
        | some n =>
          dsimp only
          by_cases hsc : scAux (jsTrimL (jsTrimL text.data)) ≠ n
          · rw [if_pos hsc]
            constructor
            · intro h
              exact absurd h (by simp)
            · intro h
              rw [Bool.and_eq_true, decide_eq_true_eq] at h
              exact absurd h.1 hsc
          · rw [if_neg hsc]
            rw [not_not] at hsc
            rw [show decide (scAux (jsTrimL (jsTrimL text.data)) = n) = true
                from by simp [hsc]]
            rw [Bool.true_and]
            cases he : opts.enforceNoImperatives.getD true with
            | true =>
              rw [if_pos rfl, Bool.not_true, Bool.false_or]
              rw [validateNoImperativeCoaching_ok_iff, firstImperativeStart_none_iff]
            | false =>
              rw [if_neg (by simp), Bool.not_false, Bool.true_or]
              simp
        | none =>
          dsimp only
          cases he : opts.enforceNoImperatives.getD true with
          | true =>
            rw [if_pos rfl, Bool.true_and, Bool.not_true, Bool.false_or]
            rw [validateNoImperativeCoaching_ok_iff, firstImperativeStart_none_iff]
          | false =>
            rw [if_neg (by simp), Bool.true_and, Bool.not_false, Bool.true_or]
            simp
  · intro hempty
    unfold validateText
    dsimp only
    rw [if_pos hempty]
  · intro hempty hwc
    unfold validateText
    dsimp only
    rw [if_neg hempty, if_pos (by
      rw [Bool.or_eq_true, decide_eq_true_eq, decide_eq_true_eq]
      omega)]

theorem c4_amended_witness : validateText t75 .past engineOpts = .ok () :=
  (c4_amended t75 .past engineOpts).1.mpr (by decide)

/-! # Lemmas on the orchestrator -/

theorem lengthRepairChain_ok (g : Nat → String) (k : Nat) (input : CardGenInput)
    (role : Role) (canonLines : List String) (now : String) (text : String)
    (out : CardGenOutput) (k2 : Nat)
    (h : lengthRepairChain g k input role canonLines now text = (.ok out, k2)) :
    validateText out.text role engineOpts = .ok () ∧ out.key = keyOf input ∧
      out.createdAtISO = now := by
  unfold lengthRepairChain at h
  split at h
  · simp at h
  · dsimp only at h
    split at h
    · simp at h
    · rename_i u hv
      simp only [Prod.mk.injEq, Except.ok.injEq] at h
      obtain ⟨hout, _⟩ := h
      subst hout
      exact ⟨hv, rfl, rfl⟩

theorem repairRounds_done_ok (g : Nat → String) (input : CardGenInput)
    (role : Role) (anchors : List String) (now : String) :
    ∀ (fuel k : Nat) (working : String) (out : CardGenOutput),
    repairRounds g input role anchors now fuel k working = .done out →
    validateText out.text role engineOpts = .ok () ∧ out.key = keyOf input := by
  intro fuel
  induction fuel with
  | zero =>
    intro k working out h
    exact absurd h (by simp [repairRounds])
  | succ fuel ih =>
    intro k working out h
    unfold repairRounds at h
    split at h
    · simp at h
    · split at h
      · simp at h
      · rename_i w2 hp u hv
        split at h
        · simp only [RepairRes.done.injEq] at h
          subst h
          exact ⟨hv, rfl⟩
        · exact ih _ _ _ h

theorem repairRounds_fellThrough_ok (g : Nat → String) (input : CardGenInput)
    (role : Role) (anchors : List String) (now : String) :
    ∀ (fuel k : Nat) (working : String) (k2 : Nat) (w : String),
    validateText working role engineOpts = .ok () →
    repairRounds g input role anchors now fuel k working = .fellThrough k2 w →
    validateText w role engineOpts = .ok () := by
  intro fuel
  induction fuel with
  | zero =>
    intro k working k2 w hval h
    simp only [repairRounds, RepairRes.fellThrough.injEq] at h
    rw [← h.2]
    exact hval
  | succ fuel ih =>
    intro k working k2 w hval h
    unfold repairRounds at h
    split at h
    · simp at h
    · split at h
      · simp at h
      · rename_i w2 hp u hv
        split at h
        · simp at h
        · exact ih _ _ _ _ (by rw [hv]) h

theorem attemptCatch_done_ok (g : Nat → String) (input : CardGenInput)
    (role : Role) (canonLines : List String) (now : String) (k : Nat)
    (text e : String) (out : CardGenOutput)
    (h : attemptCatch g input role canonLines now k text e = .done out) :
    validateText out.text role engineOpts = .ok () ∧ out.key = keyOf input := by
  unfold attemptCatch at h
  split at h
  · split at h
    · rename_i out2 k2 hchain
      simp only [AttemptRes.done.injEq] at h
      subst h
      have := lengthRepairChain_ok g k input role canonLines now text out2 k2 hchain
      exact ⟨this.1, this.2.1⟩
    · simp at h
  · simp at h

theorem runAttempt_done_ok (g : Nat → String) (input : CardGenInput)
    (role : Role) (anchors canonLines : List String) (now : String) (k : Nat)
    (prevLt : Option String) (out : CardGenOutput)
    (h : runAttempt g input role anchors canonLines now k prevLt = .done out) :
    validateText out.text role engineOpts = .ok () ∧ out.key = keyOf input := by
  unfold runAttempt at h
  split at h
  · simp at h
  · rename_i text hp
    split at h
    · exact attemptCatch_done_ok g input role canonLines now _ _ _ _ h
    · rename_i u hv
      split at h
      · split at h
        · rename_i out2 hrr
          simp only [AttemptRes.done.injEq] at h
          subst h
          exact repairRounds_done_ok g input role anchors now _ _ _ _ hrr
        · exact attemptCatch_done_ok g input role canonLines now _ _ _ _ h
        · rename_i k2 w hrr
          dsimp only at h
          split at h
          · simp only [AttemptRes.done.injEq] at h
            subst h
            exact ⟨repairRounds_fellThrough_ok g input role anchors now _ _ _ _ _
              hv hrr, rfl⟩
          · simp at h
      · exact attemptCatch_done_ok g input role canonLines now _ _ _ _ h

theorem genLoop_ok (g : Nat → String) (input : CardGenInput) (role : Role)
    (anchors canonLines : List String) (now : String) :
    ∀ (fuel k : Nat) (le lt : Option String) (out : CardGenOutput),
    genLoop g input role anchors canonLines now fuel k le lt = .ok out →
    validateText out.text role engineOpts = .ok () ∧ out.key = keyOf input := by
  intro fuel
  induction fuel with
  | zero =>
    intro k le lt out h
    simp [genLoop] at h
  | succ fuel ih =>
    intro k le lt out h
    unfold genLoop at h
    split at h
    · rename_i out2 hra
      simp only [Except.ok.injEq] at h
      subst h
      exact runAttempt_done_ok g input role anchors canonLines now _ _ _ hra
    · exact ih _ _ _ _ h

theorem finishFallback_ok (g : Nat → String) (input : CardGenInput)
    (role : Role) (now : String) (k : Nat) (lastErr lastText : Option String)
    (out : CardGenOutput)
    (h : finishFallback g input role now k lastErr lastText = .ok out) :
    validateText out.text role engineOpts = .ok () ∧ out.key = keyOf input := by
  unfold finishFallback at h
  split at h
  · simp at h
  · rename_i lt
    split at h
    · simp at h
    · rename_i u hv
      dsimp only at h
      by_cases hwc : (decide (wordCount lt < 95) || decide (wordCount lt > 125)) = true
      · rw [if_pos hwc] at h
        split at h
        · simp at h
        · rename_i rt hp
          split at h
          · simp at h
          · rename_i u2 hv2
            simp only [Except.ok.injEq] at h
            subst h
            exact ⟨hv2, rfl⟩
      · rw [if_neg hwc] at h
        simp only [Except.ok.injEq] at h
        subst h
        exact ⟨hv, rfl⟩

theorem generateCardMessage_ok (input : CardGenInput) (m : MeaningFile)
    (now : String) (g : Nat → String) (role : Role) (out : CardGenOutput)
    (hrole : roleFromIdKey input.idKey = .ok role)
    (h : generateCardMessage input m now g = .ok out) :
    validateText out.text role engineOpts = .ok () ∧ out.key = keyOf input := by
  unfold generateCardMessage at h
  rw [hrole] at h
  dsimp only at h
  split at h
  · rename_i out2 hgl
    simp only [Except.ok.injEq] at h
    subst h
    exact genLoop_ok g input role _ _ now _ _ _ _ _ hgl
  · rename_i k le lt hgl
    exact finishFallback_ok g input role now k le lt out h

theorem generateCardMessage_ok_role (input : CardGenInput) (m : MeaningFile)
    (now : String) (g : Nat → String) (out : CardGenOutput)
    (h : generateCardMessage input m now g = .ok out) :
    ∃ role, roleFromIdKey input.idKey = .ok role ∧
      validateText out.text role engineOpts = .ok () ∧ out.key = keyOf input := by
  cases hrole : roleFromIdKey input.idKey with
  | error e =>
    unfold generateCardMessage at h
    rw [hrole] at h
    simp at h
  | ok role =>
    exact ⟨role, rfl, generateCardMessage_ok input m now g role out hrole h⟩

/-- Claim C1: when `generateCardMessage` returns a result (rather than
failing with an error), the returned text passes the hard gate
`validateText(text, role, {minWords: 75, maxWords: 150,
enforceNoImperatives: true})` — every return path of the orchestrator
(soft-repair accept, coverage-only accept, word-count repair chain, and the
final fallback, the clean-success return being preceded by the same check)
re-validates before constructing the result, so text violating the hard
gate is never returned. -/
theorem c1_success_passes_hard_gate (input : CardGenInput) (m : MeaningFile)
    (now : String) (g : Nat → String) (role : Role) (out : CardGenOutput)
    (hrole : roleFromIdKey input.idKey = .ok role)
    (hok : generateCardMessage input m now g = .ok out) :
    validateText out.text role
      { minWords := some 75, maxWords := some 150, requireSentenceCount := none,
        enforceNoImperatives := some true } = .ok () :=
  (generateCardMessage_ok input m now g role out hrole hok).1

set_option maxRecDepth 100000 in
theorem c1_success_passes_hard_gate_witness :
    validateText (mkOut inp0 t95 now0).text .past
      { minWords := some 75, maxWords := some 150, requireSentenceCount := none,
        enforceNoImperatives := some true } = .ok () :=
  c1_success_passes_hard_gate inp0 m0 now0 g0 .past (mkOut inp0 t95 now0) rfl rfl

/-- Claim C9: the key of any successful result equals the `|`-joined tuple of
spread id, position id, intention id, card id and orientation flag, and is
therefore byte-identical across runs with the same request — independent of
the generator script, the canon record and the clock (all quantified
separately here); the run outcome itself is a pure function of the request
and the script, so two runs with identical inputs and identical scripts are
identical by definitional equality. -/
theorem c9_key_deterministic (input : CardGenInput) (m m2 : MeaningFile)
    (now now2 : String) (g g2 : Nat → String) (out out2 : CardGenOutput)
    (h1 : generateCardMessage input m now g = .ok out)
    (h2 : generateCardMessage input m2 now2 g2 = .ok out2) :
    out.key = input.spreadId ++ "|" ++ input.idKey ++ "|" ++ input.intentionId ++
      "|" ++ input.cardId ++ "|" ++ (if input.reversed then "r" else "u") ∧
    out.key = out2.key := by
  obtain ⟨r1, -, -, hk1⟩ := generateCardMessage_ok_role input m now g out h1
  obtain ⟨r2, -, -, hk2⟩ := generateCardMessage_ok_role input m2 now2 g2 out2 h2
  exact ⟨hk1, by rw [hk1, hk2]⟩

set_option maxRecDepth 100000 in
theorem c9_key_deterministic_witness :
    (mkOut inp0 t95 now0).key =
      inp0.spreadId ++ "|" ++ inp0.idKey ++ "|" ++ inp0.intentionId ++ "|" ++
        inp0.cardId ++ "|" ++ (if inp0.reversed then "r" else "u") ∧
    (mkOut inp0 t95 now0).key = (mkOut inp0 t95 now0).key :=
  c9_key_deterministic inp0 m0 m0 now0 now0 g0 g0 (mkOut inp0 t95 now0)
    (mkOut inp0 t95 now0) rfl rfl

set_option maxRecDepth 400000 in
/-- Claim C2 counterexample: with the script `gC2`, attempt 1 parses `t75`,
which passes the hard gate (it is "hard-gate-valid text observed during the
run") and is recorded after soft repairs fail coverage; attempts 2–4 then
record the imperative text `tImp`, overwriting the last-text slot.  The
fallback only re-validates the *last* recorded text, which fails, so the run
throws the exhaustion error even though hard-gate-valid text was observed. -/
theorem c2_counterexample :
    parseJsonOnly (gC2 0) = .ok t75 ∧
    validateText t75 .past engineOpts = .ok () ∧
    generateCardMessage inp0 m0 now0 gC2 =
      .error ("Failed to generate valid output. Last error: Imperative coaching detected: sentence starts with \"take\"") :=
  ⟨rfl, rfl, rfl⟩

/-- Claim C2 amended: after all draft attempts are exhausted, only the *last*
recorded candidate text is consulted.  No recorded text means the exhaustion
error; a last text that fails the hard gate also means the exhaustion error,
even when hard-gate-valid text was observed earlier in the run; a last text
that passes the hard gate and sits inside the target band `[95, 125]` is
returned as the flagged fallback (the out-of-band case instead performs one
more micro-repair whose parse/validation failure again yields the exhaustion
error rather than the valid text). -/
theorem c2_amended (input : CardGenInput) (m : MeaningFile) (now : String)
    (g : Nat → String) (role : Role) (k : Nat) (le lt : Option String)
    (hrole : roleFromIdKey input.idKey = .ok role)
    (hloop : genLoop g input role (pickCanonAnchors m input.reversed (seedOf input))
      (buildCanonBlock m input.reversed) now 4 0 none none = .error (k, le, lt)) :
    generateCardMessage input m now g = finishFallback g input role now k le lt ∧
    (lt = none → generateCardMessage input m now g = .error (exhaustMsg le)) ∧
    (∀ t e, lt = some t → validateText t role engineOpts = .error e →
      generateCardMessage input m now g = .error (exhaustMsg le)) ∧
    (∀ t, lt = some t → validateText t role engineOpts = .ok () →
      95 ≤ wordCount t → wordCount t ≤ 125 →
      generateCardMessage input m now g = .ok (mkOut input t now)) := by
  have hbase : generateCardMessage input m now g =
      finishFallback g input role now k le lt := by
    unfold generateCardMessage
    rw [hrole]
    dsimp only
    rw [hloop]
  refine ⟨hbase, ?_, ?_, ?_⟩
  · intro hnone
    subst hnone
    rw [hbase]
    rfl
  · intro t e hsome hv
    subst hsome
    rw [hbase]
    unfold finishFallback
    dsimp only
    rw [hv]
  · intro t hsome hv hlo hhi
    subst hsome
    rw [hbase]
    unfold finishFallback
    dsimp only
    rw [hv]
    dsimp only
    rw [if_neg (by
      rw [Bool.or_eq_true, decide_eq_true_eq, decide_eq_true_eq]
      omega)]

set_option maxRecDepth 400000 in
theorem c2_amended_witness :
    generateCardMessage inp0 m0 now0 gC2 =
      .error (exhaustMsg (some "Imperative coaching detected: sentence starts with \"take\"")) :=
  (c2_amended inp0 m0 now0 gC2 .past 6
      (some "Imperative coaching detected: sentence starts with \"take\"")
      (some tImp) rfl rfl).2.2.1 tImp
    "Imperative coaching detected: sentence starts with \"take\"" rfl rfl

set_option maxRecDepth 400000 in
/-- Claim C6 counterexample: with script `g0`, the draft (call 0) parses to
`t75`, which *passes* the hard gate — no hard-gate failure is a word-count
error in this attempt.  The first rewrite round (call 1) fails to parse and
its recorded message quotes generator output matching the word-count
pattern, so the length-repair chain is invoked anyway: the returned text is
the chain's micro-repair response `t95` from call 2. -/
theorem c6_counterexample :
    parseJsonOnly (g0 0) = .ok t75 ∧
    validateText t75 .past engineOpts = .ok () ∧
    isWordCountError ("Model did not return JSON. Got: " ++
      String.mk (jsTrimL (g0 1).data) ++ "...") = true ∧
    parseJsonOnly (g0 2) = .ok t95 ∧
    t95 ≠ t75 ∧
    generateCardMessage inp0 m0 now0 g0 = .ok (mkOut inp0 t95 now0) :=
  ⟨rfl, rfl, by decide, rfl, by decide, rfl⟩

/-- Claim C6 amended: within a draft attempt the length-repair chain is
dispatched on the *message text* of the recorded error, not on the failing
check: it runs exactly when the parsed draft is non-empty and the message
matches `/Word count \d+ outside \d+–\d+/i`.  A word-count hard-gate failure
produces such a message, and any other hard failure of the draft leads to
recording the error and consuming the attempt — but a failure whose message
merely embeds the pattern (for example a repair-round parse failure quoting
generator output) also triggers the chain, as the counterexample shows. -/
theorem c6_amended :
    (∀ (g : Nat → String) (input : CardGenInput) (role : Role)
        (anchors canonLines : List String) (now : String) (k : Nat)
        (lt : Option String) (text e : String),
      parseJsonOnly (g k) = .ok text →
      validateText text role engineOpts = .error e →
      isWordCountError e = false →
      runAttempt g input role anchors canonLines now k lt =
        .next (k + 1) e (some text)) ∧
    (∀ (g : Nat → String) (input : CardGenInput) (role : Role)
        (anchors canonLines : List String) (now : String) (k : Nat)
        (lt : Option String) (text e : String),
      parseJsonOnly (g k) = .ok text →
      validateText text role engineOpts = .error e →
      isWordCountError e = true →
      runAttempt g input role anchors canonLines now k lt =
        (match lengthRepairChain g (k + 1) input role canonLines now text with
         | (.ok out, _) => .done out
         | (.error e2, k2) => .next k2 ("Micro-repair failed: " ++ e2) (some text))) ∧
    isWordCountError (wordCountMsg 3 75 150) = true ∧
    isWordCountError (wordCountMsg 151 75 150) = true ∧
    isWordCountError refErrMsg = false ∧
    isWordCountError "Imperative coaching detected: sentence starts with \"take\"" = false := by
  refine ⟨?_, ?_, by decide, by decide, by decide, by decide⟩
  · intro g input role anchors canonLines now k lt text e hp hv hwce
    unfold runAttempt
    rw [hp]
    dsimp only
    rw [hv]
    dsimp only
    unfold attemptCatch
    rw [hwce]
    rw [if_neg (by simp)]
  · intro g input role anchors canonLines now k lt text e hp hv hwce
    unfold runAttempt
    rw [hp]
    dsimp only
    rw [hv]
    dsimp only
    unfold attemptCatch
    rw [if_pos hwce]


set_option maxRecDepth 400000 in
theorem c6_amended_witness :
    runAttempt gC2 inp0 .past (pickCanonAnchors m0 false (seedOf inp0))
      (buildCanonBlock m0 false) now0 3 (some t75) =
      .next 4 "Imperative coaching detected: sentence starts with \"take\"" (some tImp) :=
  c6_amended.1 gC2 inp0 .past (pickCanonAnchors m0 false (seedOf inp0))
    (buildCanonBlock m0 false) now0 3 (some t75) tImp
    "Imperative coaching detected: sentence starts with \"take\"" rfl rfl (by decide)

/-- Claim C7 counterexample: the response `junk {"text":"hello"}` is not
JSON-only — `JSON.parse` on the whole trimmed response fails — yet
`parseJsonOnly` accepts it, because it parses only the slice from the first
`\x7b` to the last `\x7d` and tolerates the surrounding content. -/
theorem c7_counterexample :
    jsonParse (jsTrimL ("junk \x7b\"text\":\"hello\"\x7d").data) = none ∧
    parseJsonOnly "junk \x7b\"text\":\"hello\"\x7d" = .ok "hello" :=
  ⟨rfl, rfl⟩

/-- Claim C7 amended: parsing succeeds exactly on responses whose
first-`\x7b`-to-last-`\x7d` slice is a JSON object whose every key is
`text`, whose `text` member is a string with non-empty trimmed value —
content outside the outermost braces is tolerated.  Responses without such
a slice, with a non-object slice, a wrong shape, or an extra key are
rejected with an error; at the orchestrator level a parse failure of a
draft records the error and consumes the attempt without crashing (the
attempt loop simply continues with the next index). -/
theorem c7_amended :
    (∀ (raw : String) (t : String), parseJsonOnly raw = .ok t →
      ∃ slice fields s,
        braceSlice (jsTrimL raw.data) = some slice ∧
        jsonParse slice = some (.jobj fields) ∧
        fields.find? (fun p => p.1 = "text") = some ("text", .jstr s) ∧
        (∀ p ∈ fields, p.1 = "text") ∧
        t = String.mk (jsTrimL s.data) ∧ jsTrimL s.data ≠ []) ∧
    (∀ raw : String, braceSlice (jsTrimL raw.data) = none →
      parseJsonOnly raw = .error ("Model did not return JSON. Got: " ++
        String.mk ((jsTrimL raw.data).take 180) ++ "...")) ∧
    parseJsonOnly "\x7b\"text\":\"hi\",\"extra\":1\x7d" =
      .error "Extra JSON keys not allowed: extra" ∧
    (∀ (g : Nat → String) (input : CardGenInput) (role : Role)
        (anchors canonLines : List String) (now : String) (k : Nat)
        (lt : Option String) (e : String),
      parseJsonOnly (g k) = .error e →
      runAttempt g input role anchors canonLines now k lt = .next (k + 1) e lt) := by
  refine ⟨?_, ?_, rfl, ?_⟩
  · intro raw t h
    unfold parseJsonOnly at h
    dsimp only at h
    split at h
    · simp at h
    · rename_i slice hslice
      split at h
      · simp at h
      · rename_i v hjson
        split at h
        · rename_i fields
          split at h
          · rename_i p a s hfind
            split at h
            · simp at h
            · rename_i hany
              split at h
              · simp at h
              · rename_i hs
                simp only [Except.ok.injEq] at h
                have hkey : a = "text" := by
                  have := List.find?_some hfind
                  simpa using this
                subst hkey
                refine ⟨slice, fields, s, hslice, hjson, hfind, ?_, h.symm, hs⟩
                intro p hp
                by_contra hne
                have : fields.any (fun p => p.1 ≠ "text") = true := by
                  rw [List.any_eq_true]
                  exact ⟨p, hp, by simpa using hne⟩
                exact hany this
          · simp at h
        · simp at h
  · intro raw hnone
    unfold parseJsonOnly
    dsimp only
    rw [hnone]
  · intro g input role anchors canonLines now k lt e hp
    unfold runAttempt
    rw [hp]

theorem c7_amended_witness :
    parseJsonOnly "\x7b\"text\":\" \"\x7d" = .error "\"text\" is empty." ∧
    runAttempt (fun _ => "no braces here") inp0 .past
      (pickCanonAnchors m0 false (seedOf inp0)) (buildCanonBlock m0 false)
      now0 0 none =
      .next 1 ("Model did not return JSON. Got: " ++
        String.mk ((jsTrimL ("no braces here").data).take 180) ++ "...") none :=
  ⟨rfl,
    c7_amended.2.2.2 (fun _ => "no braces here") inp0 .past
      (pickCanonAnchors m0 false (seedOf inp0)) (buildCanonBlock m0 false)
      now0 0 none _ rfl⟩

theorem c10_validateText_role_independent_witness :
    validateText "calm morning words" .past
      { minWords := some 1, maxWords := some 150, requireSentenceCount := none,
        enforceNoImperatives := some true } =
    validateText "calm morning words" .future
      { minWords := some 1, maxWords := some 150, requireSentenceCount := none,
        enforceNoImperatives := some true } :=
  c10_validateText_role_independent.1 "calm morning words"
    { minWords := some 1, maxWords := some 150, requireSentenceCount := none,
      enforceNoImperatives := some true } .past .future
